import Mathlib

/-!
Verification development for the MNDBBT live-buy-tracker core
(`chains.runtime.ts`, `liveBuyTracker.ts`, `queue.ts`, `alerts.buy.ts`).

Modelling conventions:
* Addresses and chain identifiers are plain `String`s, assumed to be in the
  lowercased form the code normalises to (every comparison site in the source
  lowercases both sides, so `toLowerCase` becomes the identity here).
* JavaScript `BigInt` values become `Int`/`Nat` (BigInt arithmetic is exact,
  and BigInt division truncates toward zero, which on non-negative operands
  is `Nat` division).
* JavaScript `number` values that only ever hold integers or are compared
  against thresholds are modelled as `ℚ` (exact), with `Math.round`
  modelled as `round : ℚ → ℤ` (both round half toward positive infinity).
* JavaScript `Map` objects become association lists that keep insertion
  order: `set` replaces the first matching key in place or appends,
  `delete` filters, iteration is list order.
* Network effects (RPC reads, HTTP fetches, websocket liveness) are supplied
  as explicit oracle parameters, fixed for the duration of a run.
-/

namespace MNDBBT

/-! ### Association-list operations mirroring JavaScript `Map` -/

/-- JavaScript `Map.prototype.set`: replace the first binding of `k` in
place, or append a new binding at the end. -/
def mapSet {α β : Type} [DecidableEq α] : List (α × β) → α → β → List (α × β)
  | [], k, v => [(k, v)]
  | (k0, v0) :: rest, k, v =>
    if k0 = k then (k, v) :: rest else (k0, v0) :: mapSet rest k v

/-- JavaScript `Map.prototype.get` (first binding wins). -/
def mapLookup {α β : Type} [DecidableEq α] : List (α × β) → α → Option β
  | [], _ => none
  | (k0, v) :: rest, k => if k0 = k then some v else mapLookup rest k

/-- JavaScript `Map.prototype.has`. -/
def mapHas {α β : Type} [DecidableEq α] (m : List (α × β)) (k : α) : Bool :=
  (mapLookup m k).isSome

/-- `rpcUrl.startsWith("wss")` from `syncListeners`, evaluated on the
character list so that the kernel can compute it on concrete strings. -/
def startsWithWss (s : String) : Bool :=
  match s.data with
  | 'w' :: 's' :: 's' :: _ => true
  | _ => false

/-! ### C1: signed-delta (V3/V4) swap classification

Source: `chains.runtime.ts`, `attachSwapListener`, the V3 handler
(lines 994-1028) and the identical V4 handler (lines 1032-1065):

    const isToken0 = tokens.token0 === targetTokenLower;
    const isBuy = (isToken0 && a0 < 0n) || (!isToken0 && a1 < 0n);
    if (!isBuy) return;
    const amount0In = a0 > 0n ? a0 : 0n;
    const amount1In = a1 > 0n ? a1 : 0n;
    const amount0Out = a0 < 0n ? -a0 : 0n;
    const amount1Out = a1 < 0n ? -a1 : 0n;

`none` models the discarded (`return`) case; `some` carries the four
amounts handed to `handleSwap`. -/
def classifySignedDelta (token0 targetTokenLower : String) (a0 a1 : Int) :
    Option (Int × Int × Int × Int) :=
  let isToken0 : Bool := token0 == targetTokenLower
  let isBuy : Bool := (isToken0 && decide (a0 < 0)) || (!isToken0 && decide (a1 < 0))
  if isBuy then
    some (if a0 > 0 then a0 else 0,
          if a1 > 0 then a1 else 0,
          if a0 < 0 then -a0 else 0,
          if a1 < 0 then -a1 else 0)
  else
    none

/-- Exactly one of two propositions holds. -/
def exactlyOne (p q : Prop) : Prop := (p ∧ ¬q) ∨ (¬p ∧ q)

instance (p q : Prop) [Decidable p] [Decidable q] : Decidable (exactlyOne p q) := by
  unfold exactlyOne; infer_instance

/-! ### C3: position-increase computation

Source: `chains.runtime.ts`, `handleSwap` (lines 1364-1395):

    const MIN_POSITION_USD = 100;
    let positionIncrease: number | null = null;
    if (usdValue >= MIN_POSITION_USD) {
      const prevBalance = await getPreviousBalance(...);
      if (prevBalance > 0n) {
        const thisBuyAmount = tokenOut.toBigInt();
        const increaseTimes10 = (thisBuyAmount * 1000n) / prevBalance;
        const MAX_PERCENT_TIMES10 = 1_000_000n * 10n;
        if (increaseTimes10 <= MAX_PERCENT_TIMES10) {
          const rawIncrease = Number(increaseTimes10) / 10;
          if (Number.isFinite(rawIncrease) && rawIncrease > 0) {
            positionIncrease = Math.round(rawIncrease);
          }
        } else { positionIncrease = null; }
      } else { positionIncrease = null; }
    }

Since `increaseTimes10 ≤ 10^7`, the `Number` conversion is exact and
`Math.round(n / 10)` equals `(n + 5) / 10` in `Nat` arithmetic
(IEEE division by 10 is correctly rounded, ties `n ≡ 5 [MOD 10]` land on
exactly representable half-integers, and `Math.round` rounds halves up);
`Number.isFinite` always holds. A balance-lookup failure is the `none`
branch of `prevBalance?`. -/
def MIN_POSITION_USD : ℚ := 100

def MAX_PERCENT_TIMES10 : Nat := 1000000 * 10

def positionIncreaseCalc (usdValue : ℚ) (prevBalance? : Option Nat)
    (thisBuyAmount : Nat) : Option Nat :=
  if usdValue ≥ MIN_POSITION_USD then
    match prevBalance? with
    | none => none
    | some prevBalance =>
      if prevBalance > 0 then
        let increaseTimes10 := thisBuyAmount * 1000 / prevBalance
        if increaseTimes10 ≤ MAX_PERCENT_TIMES10 then
          if increaseTimes10 > 0 then some ((increaseTimes10 + 5) / 10) else none
        else none
      else none
  else none

/-! ### C2 / C10: buyer resolution and the contract-check cache

Source: `chains.runtime.ts`, `isContractAddress` (lines 870-904) and the
buyer-resolution block of `handleSwap` (lines 1129-1176). -/

/-- Outcome of `runtime.provider.getCode` as seen by `isContractAddress`:
the runtime for the chain may be missing, the RPC call may throw, or it
returns the code string (modelled by whether code is present, i.e.
`code && code !== "0x"`). -/
inductive CodeProbe : Type
  | noRuntime : CodeProbe
  | failure : CodeProbe
  | code (isC : Bool) : CodeProbe
deriving DecidableEq, Repr

/-- `isContractAddress(chain, address)`: consult the chain-aware cache
first; on a miss, a missing runtime or a thrown `getCode` both store and
return `false`, otherwise the code-presence answer is stored and returned.
The cache key is `chain:addressLowercased`, modelled as a pair. -/
def isContractAddress (cache : List ((String × String) × Bool))
    (chain addr : String) (probe : CodeProbe) :
    Bool × List ((String × String) × Bool) :=
  match mapLookup cache (chain, addr) with
  | some v => (v, cache)
  | none =>
    match probe with
    | .noRuntime => (false, mapSet cache (chain, addr) false)
    | .failure => (false, mapSet cache (chain, addr) false)
    | .code b => (b, mapSet cache (chain, addr) b)

/-- Result of `runtime.provider.getTransaction(txHash)` as used by
`handleSwap`: a thrown error, a null transaction / missing `from` field,
or a transaction with a `from` address. -/
inductive TxLookup : Type
  | failure : TxLookup
  | missing : TxLookup
  | found (fromAddr : String) : TxLookup
deriving DecidableEq, Repr

/-- Buyer resolution from `handleSwap` (lines 1129-1176): a non-contract
recipient is the buyer; a contract recipient on any chain other than
`"monad"` is skipped unconditionally; on `"monad"` the original
transaction's `from` address becomes the buyer when it is not itself a
contract, and every other case (contract `from`, missing transaction or
`from` field, thrown `getTransaction`) is skipped. `none` models the
skip (`return` before any alert is enqueued). -/
def resolveBuyer (chain recipient : String) (isContract : String → Bool)
    (tx : TxLookup) : Option String :=
  if isContract recipient then
    if chain == "monad" then
      match tx with
      | .found fromAddr => if isContract fromAddr then none else some fromAddr
      | .missing => none
      | .failure => none
    else none
  else some recipient

/-! ### C8: the bounded alert dispatch queue

Source: `queue.ts`, `AlertQueue.enqueue` (lines 32-47). Only the fields
touched by `enqueue` are modelled (`jobs`, `droppedCount`); a job's
`run` closure is irrelevant to queue shape, so a job is identified by its
group id and an opaque tag. -/

structure AlertJob where
  groupId : Int
  tag : Nat
deriving DecidableEq, Repr

structure AlertQueue where
  jobs : List AlertJob
  droppedCount : Nat
deriving DecidableEq, Repr

def MAX_QUEUE_SIZE : Nat := 5000

/-- `enqueue(job)`: when the queue already holds `MAX_QUEUE_SIZE` jobs,
`shift()` drops the oldest and the drop counter increments; then the new
job is pushed at the back. -/
def AlertQueue.enqueue (q : AlertQueue) (job : AlertJob) : AlertQueue :=
  if q.jobs.length ≥ MAX_QUEUE_SIZE then
    { jobs := q.jobs.tail ++ [job], droppedCount := q.droppedCount + 1 }
  else
    { jobs := q.jobs ++ [job], droppedCount := q.droppedCount }

/-- Enqueue a list of jobs in order. -/
def AlertQueue.enqueueAll (q : AlertQueue) (l : List AlertJob) : AlertQueue :=
  l.foldl AlertQueue.enqueue q

/-! ### C4 / C7: per-group filters inside `sendPremiumBuyAlert`, and the
enqueue loop of `handleSwap`

Source: `alerts.buy.ts`, `sendPremiumBuyAlert` (lines 246-280 of the
second document in `utils/hybridApi.ts`):

    const buyUsd = Math.round(usdValue);
    if (buyUsd < settings.minBuyUsd) return;
    if (settings.maxBuyUsd && buyUsd > settings.maxBuyUsd) return;
    const key = `${groupId}:${pairAddress.toLowerCase()}`;
    const now = Date.now();
    const cdMs = (settings.cooldownSeconds ?? 3) * 1000;
    const last = lastAlertAt.get(key) ?? 0;
    if (now - last < cdMs) return;
    lastAlertAt.set(key, now);
    ... // message assembly and the telegram send attempt follow

and `chains.runtime.ts`, `handleSwap` (lines 1397-1422), which builds one
`PremiumAlertData` and enqueues one `AlertJob` per related group with no
filter of its own. -/

structure BuyBotSettings where
  minBuyUsd : ℚ
  /-- `maxBuyUsd?: number` — `undefined` is `none`; note `0` is falsy in
  the source's `settings.maxBuyUsd &&` guard. -/
  maxBuyUsd : Option ℚ
  /-- `cooldownSeconds?: number` — `undefined` is `none` and defaults to 3. -/
  cooldownSeconds : Option Nat
deriving DecidableEq, Repr

/-- `lastAlertAt`: cooldown map keyed by `groupId:pairAddress`. -/
abbrev CooldownMap := List ((Int × String) × Nat)

/-- Admission logic of `sendPremiumBuyAlert`. Returns whether the call
proceeded past all gates to the transport send attempt, together with the
updated cooldown map. The map is updated *before* the send attempt (and
the send's `try/catch` swallows failures without touching the map), so
admission alone fixes the timestamp. -/
def sendPremiumBuyAlert (s : BuyBotSettings) (groupId : Int)
    (pairAddress : String) (usdValue : ℚ) (now : Nat)
    (lastAlertAt : CooldownMap) : Bool × CooldownMap :=
  let buyUsd : ℤ := round usdValue
  if (buyUsd : ℚ) < s.minBuyUsd then (false, lastAlertAt)
  else if (match s.maxBuyUsd with
           | none => false
           | some m => !(m == 0) && decide ((m : ℚ) < (buyUsd : ℚ))) then
    (false, lastAlertAt)
  else
    let key := (groupId, pairAddress)
    let cdMs := (s.cooldownSeconds.getD 3) * 1000
    let last := (mapLookup lastAlertAt key).getD 0
    if (now : ℤ) - (last : ℤ) < (cdMs : ℤ) then (false, lastAlertAt)
    else (true, mapSet lastAlertAt key now)

/-- The alert fan-out loop at the end of `handleSwap`: one job per related
group is enqueued into the global queue, with no inspection of the USD
value or the group's filters. -/
def handleSwapEnqueue (q : AlertQueue) (relatedGroupIds : List Int) : AlertQueue :=
  relatedGroupIds.foldl (fun acc g => acc.enqueue ⟨g, 0⟩) q

/-- A buy passes the two USD gates at the top of `sendPremiumBuyAlert`
(`buyUsd < minBuyUsd` and the truthy-`maxBuyUsd` upper bound). -/
def passesUsdFilters (s : BuyBotSettings) (usd : ℚ) : Bool :=
  !(decide ((round usd : ℚ) < s.minBuyUsd)) &&
  !(match s.maxBuyUsd with
    | none => false
    | some m => !(m == 0) && decide ((m : ℚ) < ((round usd : ℤ) : ℚ)))

/-! ### C5 / C6 / C9: the reconciliation loop `syncListeners`

Source: `liveBuyTracker.ts`, `syncListeners` (lines 174-461), with
`attachWsLifecycle` (lines 143-170) and `attachSwapListener` from
`chains.runtime.ts` (lines 962-1075, which builds the returned
`PairRuntime` record `{v2, v3, v4, token0, token1, targetToken}`).

The ethers listener handles are not observable state; what matters is
which provider generation a `PairRuntime`'s listeners are bound to, so a
`provGen` counter stands in for the provider object identity (incremented
each time `syncListeners` recreates a websocket provider). External
behaviour — chain config, on-chain `token0()`/`token1()` reads,
DexScreener auto-fill (`getAllValidPairs`), address validation and
websocket socket state — is an explicit environment fixed per run. -/

/-- `PairRuntime` (without the ethers contract handles). -/
structure PairRuntime where
  token0 : String
  token1 : String
  targetToken : String
  /-- Which provider generation the listeners are attached to. -/
  provGen : Nat
deriving DecidableEq, Repr

/-- `ChainRuntime` plus the websocket-lifecycle fields that
`attachWsLifecycle` pins onto it (`wsDead`, `lastWsActivity`). -/
structure ChainRuntime where
  pairs : List (String × PairRuntime)
  rpcUrl : String
  isWebSocket : Bool
  provGen : Nat
  wsDead : Bool
  lastWsActivity : Nat
deriving DecidableEq, Repr

/-- The slice of `BuyBotSettings` that `syncListeners` reads and writes. -/
structure GroupSettings where
  chain : String
  tokenAddress : String
  allPairAddresses : List String
deriving DecidableEq, Repr

structure ChainConfig where
  rpcUrl : String
deriving DecidableEq, Repr

/-- External environment of one `syncListeners` run. -/
structure SyncEnv where
  /-- `appConfig.chains[chain]` (absent key is `none`). -/
  chains : String → Option ChainConfig
  /-- On-chain `token0()` / `token1()` read on a pool contract; `none`
  models the read throwing. -/
  tokenRead : String → String → Option (String × String)
  /-- `getAllValidPairs(tokenAddress, chain)` — addresses of the top-15
  pools (an HTTP failure is the empty list, as in the source). -/
  autoFill : String → String → List String
  /-- `ethers.utils.isAddress`. -/
  validAddr : String → Bool
  /-- Whether the chain's websocket currently reports `readyState === 1`. -/
  wsOpen : String → Bool
  /-- `Date.now()` during this run. -/
  now : Nat

/-- Observable subscription churn produced by one run. -/
inductive SyncEvent : Type
  | detach (chain addr : String) : SyncEvent
  | attach (chain addr : String) : SyncEvent
  | reattach (chain addr : String) : SyncEvent
  | replaceProvider (chain : String) : SyncEvent
deriving DecidableEq, Repr

/-- `!chainCfg || !chainCfg.rpcUrl` from the source (empty string is
falsy). -/
def chainCfgOk (env : SyncEnv) (c : String) : Bool :=
  match env.chains c with
  | none => false
  | some cfg => !(cfg.rpcUrl == "")

/-- Step 0 of `syncListeners` (lines 178-209): tear down runtimes whose
chain key left `appConfig.chains`, detaching every pair. -/
def removeOrphanRuntimes (env : SyncEnv) :
    List (String × ChainRuntime) → List (String × ChainRuntime) × List SyncEvent
  | [] => ([], [])
  | (c, rt) :: rest =>
    if (env.chains c).isSome then
      ((c, rt) :: (removeOrphanRuntimes env rest).1, (removeOrphanRuntimes env rest).2)
    else
      ((removeOrphanRuntimes env rest).1,
       rt.pairs.map (fun p => SyncEvent.detach c p.1) ++ (removeOrphanRuntimes env rest).2)

/-- The union of every group's `allPairAddresses` (lines 212-217);
membership is all that matters, so a list suffices for the JS `Set`. -/
def activePairAddrs (gs : List (Int × GroupSettings)) : List String :=
  gs.foldl (fun acc g => acc ++ g.2.allPairAddresses) []

/-- Step 1 of `syncListeners` (lines 219-236): drop every pair no group
references any more. -/
def pruneDeadPairs (active : List String) :
    List (String × ChainRuntime) → List (String × ChainRuntime) × List SyncEvent
  | [] => ([], [])
  | (c, rt) :: rest =>
    ((c, { rt with pairs := rt.pairs.filter (fun p => active.contains p.1) }) ::
        (pruneDeadPairs active rest).1,
     (rt.pairs.filter (fun p => !(active.contains p.1))).map
        (fun p => SyncEvent.detach c p.1) ++ (pruneDeadPairs active rest).2)

/-- Add addresses to one chain's needed set (`Set.add`: no duplicates,
insertion order). -/
def insertUniqueAddr (l : List String) (a : String) : List String :=
  if l.contains a then l else l ++ [a]

def neededInsert (m : List (String × List String)) (c : String)
    (addrs : List String) : List (String × List String) :=
  match m with
  | [] => [(c, addrs.foldl insertUniqueAddr [])]
  | (c0, s) :: rest =>
    if c0 = c then (c0, addrs.foldl insertUniqueAddr s) :: rest
    else (c0, s) :: neededInsert rest c addrs

/-- The per-group body of step 2 (lines 241-260): a group whose chain has
no usable config is skipped untouched (`continue`); a group with an empty
pool list is auto-filled from `getAllValidPairs` when that returns
anything; every other group is untouched. -/
def computeNeededStep (env : SyncEnv) (s : GroupSettings) : GroupSettings :=
  if chainCfgOk env s.chain then
    if s.allPairAddresses.isEmpty then
      let filled := env.autoFill s.tokenAddress s.chain
      if filled.isEmpty then s else { s with allPairAddresses := filled }
    else s
  else s

/-- Step 2 of `syncListeners` (lines 239-270): walk the group settings in
order, auto-filling any group with an empty pool list from
`getAllValidPairs`, and accumulate `neededPairsByChain` (a group
contributes its pool addresses only when its chain config is usable and
the list is non-empty after auto-fill). Returns the (possibly mutated)
settings and the needed map. -/
def computeNeededAux (env : SyncEnv) (acc : List (String × List String)) :
    List (Int × GroupSettings) →
    List (Int × GroupSettings) × List (String × List String)
  | [] => ([], acc)
  | (gid, s) :: rest =>
    let s1 := computeNeededStep env s
    let acc2 := if chainCfgOk env s.chain && !s1.allPairAddresses.isEmpty then
                  neededInsert acc s1.chain s1.allPairAddresses
                else acc
    ((gid, s1) :: (computeNeededAux env acc2 rest).1, (computeNeededAux env acc2 rest).2)

def computeNeeded (env : SyncEnv) (gs : List (Int × GroupSettings)) :
    List (Int × GroupSettings) × List (String × List String) :=
  computeNeededAux env [] gs

/-- The first-match-wins target-token resolution for a new pair
(lines 386-397): the first group on this chain whose pool list contains
the address supplies its tracked token. -/
def findTargetToken (gs : List (Int × GroupSettings)) (c addr : String) :
    Option String :=
  match gs with
  | [] => none
  | (_, s) :: rest =>
    if s.chain == c && s.allPairAddresses.contains addr then some s.tokenAddress
    else findTargetToken rest c addr

/-- Websocket staleness refresh (lines 299-358): a websocket runtime whose
socket is not open, or flagged dead, or silent for more than 60s, gets a
fresh provider; every existing pair is re-attached to it via
`attachSwapListener` with its stored `token0`/`token1`/`targetToken`
(hence only `provGen` changes on each `PairRuntime`). -/
def refreshRuntime (env : SyncEnv) (c : String) (rt : ChainRuntime) :
    ChainRuntime × List SyncEvent :=
  if rt.isWebSocket then
    let noActivityTooLong := env.now - rt.lastWsActivity > 60000
    if !(env.wsOpen c) || rt.wsDead || noActivityTooLong then
      let gen2 := rt.provGen + 1
      ({ rt with
          pairs := rt.pairs.map (fun p => (p.1, { p.2 with provGen := gen2 })),
          provGen := gen2, wsDead := false, lastWsActivity := env.now },
       SyncEvent.replaceProvider c :: rt.pairs.map (fun p => SyncEvent.reattach c p.1))
    else (rt, [])
  else (rt, [])

/-- The per-chain cleanup loop (lines 361-374): detach pairs that are no
longer in this chain's needed set. -/
def cleanupUnneeded (c : String) (needed : List String)
    (pairs : List (String × PairRuntime)) :
    List (String × PairRuntime) × List SyncEvent :=
  (pairs.filter (fun p => needed.contains p.1),
   (pairs.filter (fun p => !(needed.contains p.1))).map
     (fun p => SyncEvent.detach c p.1))

/-- The per-chain attach loop (lines 377-459): for each needed address not
yet subscribed, validate the address, resolve the target token from the
first matching group (an empty token string is falsy and skipped), read
`token0`/`token1` on chain, and on success store the new `PairRuntime`
bound to the current provider generation. Every failure skips just that
address. -/
def attachNewPairs (env : SyncEnv) (gs : List (Int × GroupSettings))
    (c : String) (gen : Nat) (pairs : List (String × PairRuntime)) :
    List String → List (String × PairRuntime) × List SyncEvent
  | [] => (pairs, [])
  | addr :: rest =>
    if mapHas pairs addr then attachNewPairs env gs c gen pairs rest
    else if !(env.validAddr addr) then attachNewPairs env gs c gen pairs rest
    else
      match findTargetToken gs c addr with
      | none => attachNewPairs env gs c gen pairs rest
      | some tt =>
        if tt == "" then attachNewPairs env gs c gen pairs rest
        else
          match env.tokenRead c addr with
          | none => attachNewPairs env gs c gen pairs rest
          | some (t0, t1) =>
            ((attachNewPairs env gs c gen (mapSet pairs addr ⟨t0, t1, tt, gen⟩) rest).1,
             SyncEvent.attach c addr ::
               (attachNewPairs env gs c gen (mapSet pairs addr ⟨t0, t1, tt, gen⟩) rest).2)

/-- Step 3 of `syncListeners` for one chain (lines 273-459): ensure a
runtime exists (creating one from the configured endpoint), refresh a
stale websocket, then run the cleanup and attach loops. -/
def syncChain (env : SyncEnv) (gs : List (Int × GroupSettings)) (c : String)
    (needed : List String) (rts : List (String × ChainRuntime)) :
    List (String × ChainRuntime) × List SyncEvent :=
  match env.chains c with
  | none => (rts, [])
  | some cfg =>
    if cfg.rpcUrl == "" then (rts, [])
    else
      match mapLookup rts c with
      | none =>
        let rt0 : ChainRuntime :=
          { pairs := [], rpcUrl := cfg.rpcUrl, isWebSocket := startsWithWss cfg.rpcUrl,
            provGen := 0, wsDead := false, lastWsActivity := env.now }
        let pairs2 := (cleanupUnneeded c needed rt0.pairs).1
        (rts ++ [(c, { rt0 with pairs := (attachNewPairs env gs c rt0.provGen pairs2 needed).1 })],
         (cleanupUnneeded c needed rt0.pairs).2 ++
           (attachNewPairs env gs c rt0.provGen pairs2 needed).2)
      | some rt =>
        let rt1 := (refreshRuntime env c rt).1
        let pairs2 := (cleanupUnneeded c needed rt1.pairs).1
        (mapSet rts c { rt1 with pairs := (attachNewPairs env gs c rt1.provGen pairs2 needed).1 },
         (refreshRuntime env c rt).2 ++ (cleanupUnneeded c needed rt1.pairs).2 ++
           (attachNewPairs env gs c rt1.provGen pairs2 needed).2)

def syncChains (env : SyncEnv) (gs : List (Int × GroupSettings)) :
    List (String × List String) → List (String × ChainRuntime) →
    List (String × ChainRuntime) × List SyncEvent
  | [], rts => (rts, [])
  | (c, ns) :: rest, rts =>
    ((syncChains env gs rest (syncChain env gs c ns rts).1).1,
     (syncChain env gs c ns rts).2 ++
       (syncChains env gs rest (syncChain env gs c ns rts).1).2)

structure SyncResult where
  runtimes : List (String × ChainRuntime)
  groups : List (Int × GroupSettings)
  events : List SyncEvent
deriving DecidableEq, Repr

/-- One full `syncListeners` run. -/
def syncListeners (env : SyncEnv) (gs : List (Int × GroupSettings))
    (rts : List (String × ChainRuntime)) : SyncResult :=
  let rts0 := (removeOrphanRuntimes env rts).1
  let rts1 := (pruneDeadPairs (activePairAddrs gs) rts0).1
  let gs1 := (computeNeeded env gs).1
  let needed := (computeNeeded env gs).2
  ⟨(syncChains env gs1 needed rts1).1, gs1,
    (removeOrphanRuntimes env rts).2 ++ (pruneDeadPairs (activePairAddrs gs) rts0).2 ++
      (syncChains env gs1 needed rts1).2⟩

/-! ### Derived predicates over the sync state -/

/-- One subscription list satisfies the target-token invariant. -/
def pairsOk (ps : List (String × PairRuntime)) : Prop :=
  ∀ p ∈ ps, p.2.targetToken = p.2.token0 ∨ p.2.targetToken = p.2.token1

/-- The `PoolSubscription` invariant from the specification: the tracked
target token is one of the pool's two constituent tokens. -/
def pairInvariant (rts : List (String × ChainRuntime)) : Prop :=
  ∀ crt ∈ rts, pairsOk crt.2.pairs

/-- Every runtime's chain key is still present in the chain config. -/
def chainsConfigured (env : SyncEnv) (rts : List (String × ChainRuntime)) : Prop :=
  ∀ p ∈ rts, (env.chains p.1).isSome

/-- Every subscribed pool address is referenced by some group. -/
def pairsActive (active : List String) (rts : List (String × ChainRuntime)) : Prop :=
  ∀ p ∈ rts, ∀ q ∈ p.2.pairs, active.contains q.1 = true

/-- No runtime's pairs map has duplicate keys (JavaScript `Map` semantics). -/
def pairsNodup (rts : List (String × ChainRuntime)) : Prop :=
  ∀ p ∈ rts, (p.2.pairs.map Prod.fst).Nodup

/-- A websocket runtime currently looks alive to the staleness check of
`syncListeners`: socket open, not flagged dead, recent activity.
Request/response (HTTP) runtimes are never staleness-checked. -/
def runtimesHealthy (env : SyncEnv) (rts : List (String × ChainRuntime)) : Prop :=
  ∀ p ∈ rts, p.2.isWebSocket = true →
    env.wsOpen p.1 = true ∧ p.2.wsDead = false ∧
    env.now - p.2.lastWsActivity ≤ 60000

/-- All the ways the attach loop can skip one needed address: invalid
address, no matching group (or an empty token string, which is falsy), or
a failing on-chain `token0()`/`token1()` read. -/
def attachFails (env : SyncEnv) (gs : List (Int × GroupSettings))
    (c a : String) : Prop :=
  env.validAddr a = false ∨ findTargetToken gs c a = none ∨
  findTargetToken gs c a = some "" ∨ env.tokenRead c a = none

/-! ### Concrete instances used to evaluate the model -/

/-- An environment with one HTTP chain whose pool reads back tokens
`0xa`/`0xb`, while the only group tracks the unrelated token `0xt`. -/
def envTargetMismatch : SyncEnv :=
  { chains := fun c => if c = "bsc" then some ⟨"https://node.example"⟩ else none
  , tokenRead := fun _ _ => some ("0xa", "0xb")
  , autoFill := fun _ _ => []
  , validAddr := fun _ => true
  , wsOpen := fun _ => true
  , now := 0 }

/-- An environment whose single chain uses a websocket endpoint and whose
clock is 61 001 ms past epoch. -/
def envStaleWs : SyncEnv :=
  { chains := fun c => if c = "bsc" then some ⟨"wss://node.example"⟩ else none
  , tokenRead := fun _ _ => none
  , autoFill := fun _ _ => []
  , validAddr := fun _ => true
  , wsOpen := fun _ => true
  , now := 61001 }

/-- A websocket runtime with one subscription and no activity since time 0. -/
def rtStaleWs : ChainRuntime :=
  { pairs := [("0xp", ⟨"0xa", "0xb", "0xa", 0⟩)]
  , rpcUrl := "wss://node.example", isWebSocket := true
  , provGen := 0, wsDead := false, lastWsActivity := 0 }

/-- An environment with one HTTP chain where pool `0xp` reads back tokens
`0xt`/`0xb`. -/
def envIdem : SyncEnv :=
  { chains := fun c => if c = "bsc" then some ⟨"https://node.example"⟩ else none
  , tokenRead := fun c a => if c = "bsc" ∧ a = "0xp" then some ("0xt", "0xb") else none
  , autoFill := fun _ _ => []
  , validAddr := fun _ => true
  , wsOpen := fun _ => true
  , now := 0 }

/-! ## Helper lemmas -/

theorem mapLookup_mapSet_self {α β : Type} [DecidableEq α]
    (m : List (α × β)) (k : α) (v : β) : mapLookup (mapSet m k v) k = some v := by
  induction m with
  | nil => simp [mapSet, mapLookup]
  | cons hd tl ih =>
    obtain ⟨k0, v0⟩ := hd
    by_cases h : k0 = k <;> simp [mapSet, mapLookup, h, ih]

theorem mapLookup_mapSet_ne {α β : Type} [DecidableEq α]
    (m : List (α × β)) (k k' : α) (v : β) (h : k' ≠ k) :
    mapLookup (mapSet m k v) k' = mapLookup m k' := by
  induction m with
  | nil => simp [mapSet, mapLookup, Ne.symm h]
  | cons hd tl ih =>
    obtain ⟨k0, v0⟩ := hd
    by_cases h0 : k0 = k
    · subst h0
      simp [mapSet, mapLookup, Ne.symm h]
    · simp [mapSet, mapLookup, h0, ih]

/-- Setting a key back to the value it already holds is a no-op
(`Map.prototype.set` with the current value). -/
theorem mapSet_self {α β : Type} [DecidableEq α]
    (m : List (α × β)) (k : α) (v : β) (h : mapLookup m k = some v) :
    mapSet m k v = m := by
  induction m with
  | nil => simp [mapLookup] at h
  | cons hd tl ih =>
    obtain ⟨k0, v0⟩ := hd
    by_cases h0 : k0 = k
    · subst h0
      simp [mapLookup] at h
      simp [mapSet, h]
    · simp [mapLookup, h0] at h
      simp [mapSet, h0, ih h]

theorem mem_mapSet {α β : Type} [DecidableEq α] (m : List (α × β)) (k : α)
    (v : β) (x : α × β) (hx : x ∈ mapSet m k v) : x ∈ m ∨ x = (k, v) := by
  induction m with
  | nil => simpa [mapSet] using hx
  | cons hd tl ih =>
    obtain ⟨k0, v0⟩ := hd
    by_cases h : k0 = k
    · simp [mapSet, h] at hx
      rcases hx with h1 | h1
      · right; simp [h1]
      · left; simp [h1]
    · simp [mapSet, h] at hx
      rcases hx with h1 | h1
      · left; simp [h1]
      · rcases ih h1 with h2 | h2
        · left; simp [h2]
        · right; exact h2

theorem mapLookup_some_mem {α β : Type} [DecidableEq α]
    (m : List (α × β)) (k : α) (v : β) (h : mapLookup m k = some v) :
    (k, v) ∈ m := by
  induction m with
  | nil => simp [mapLookup] at h
  | cons hd tl ih =>
    obtain ⟨k0, v0⟩ := hd
    by_cases h0 : k0 = k
    · subst h0
      simp [mapLookup] at h
      simp [h]
    · simp [mapLookup, h0] at h
      simp [ih h]

/-- The classifier yields `none` (the event is discarded) exactly when the
signed delta on the target token's slot is non-negative. -/
theorem classifySignedDelta_none_iff (token0 target : String) (a0 a1 : Int) :
    classifySignedDelta token0 target a0 a1 = none ↔
      0 ≤ (if token0 = target then a0 else a1) := by
  unfold classifySignedDelta
  by_cases ht : token0 = target <;> by_cases h0 : a0 < 0 <;> by_cases h1 : a1 < 0 <;>
    simp [ht, h0, h1] <;> omega

/-- When the classifier accepts, the four amounts are the clamped
positive parts and negated negative parts of the two deltas. -/
theorem classifySignedDelta_eq_some (token0 target : String) (a0 a1 : Int)
    (r : Int × Int × Int × Int)
    (h : classifySignedDelta token0 target a0 a1 = some r) :
    r = (if a0 > 0 then a0 else 0, if a1 > 0 then a1 else 0,
         if a0 < 0 then -a0 else 0, if a1 < 0 then -a1 else 0) := by
  unfold classifySignedDelta at h
  dsimp only at h
  by_cases hb : ((token0 == target) && decide (a0 < 0) ||
      (!(token0 == target)) && decide (a1 < 0)) = true
  · rw [if_pos hb] at h
    exact (Option.some.inj h).symm
  · rw [if_neg hb] at h
    exact absurd h (by simp)

/-- A call that passes both USD gates and whose cooldown has elapsed
reaches the transport send, stamping the cooldown map first. -/
theorem sendPremiumBuyAlert_admitted (s : BuyBotSettings) (g : Int)
    (pair : String) (usd : ℚ) (now : Nat) (m : CooldownMap)
    (hq : passesUsdFilters s usd = true)
    (hcd : ¬((now : ℤ) - (((mapLookup m (g, pair)).getD 0 : Nat) : ℤ) <
      ((s.cooldownSeconds.getD 3) * 1000 : Nat))) :
    sendPremiumBuyAlert s g pair usd now m = (true, mapSet m (g, pair) now) := by
  unfold passesUsdFilters at hq
  simp only [Bool.and_eq_true, Bool.not_eq_true'] at hq
  obtain ⟨h1, h2⟩ := hq
  unfold sendPremiumBuyAlert
  rw [if_neg (by simp_all), if_neg (by simp_all), if_neg hcd]

/-- A call inside the cooldown window returns without delivering and
leaves the cooldown map untouched. -/
theorem sendPremiumBuyAlert_cooldown_blocked (s : BuyBotSettings) (g : Int)
    (pair : String) (usd : ℚ) (now : Nat) (m : CooldownMap)
    (hcd : (now : ℤ) - (((mapLookup m (g, pair)).getD 0 : Nat) : ℤ) <
      ((s.cooldownSeconds.getD 3) * 1000 : Nat)) :
    sendPremiumBuyAlert s g pair usd now m = (false, m) := by
  unfold sendPremiumBuyAlert
  dsimp only
  split_ifs with h1 h2 <;> rfl

theorem AlertQueue.enqueue_no_overflow (q : AlertQueue) (j : AlertJob)
    (h : q.jobs.length < MAX_QUEUE_SIZE) :
    q.enqueue j = ⟨q.jobs ++ [j], q.droppedCount⟩ := by
  unfold AlertQueue.enqueue
  rw [if_neg (by omega)]

/-- Enqueueing any batch that fits under the cap appends it in order and
drops nothing. -/
theorem AlertQueue.enqueueAll_no_overflow (q : AlertQueue) (l : List AlertJob)
    (h : q.jobs.length + l.length ≤ MAX_QUEUE_SIZE) :
    q.enqueueAll l = ⟨q.jobs ++ l, q.droppedCount⟩ := by
  induction l generalizing q with
  | nil => simp [AlertQueue.enqueueAll]
  | cons a t ih =>
    simp only [List.length_cons] at h
    unfold AlertQueue.enqueueAll
    simp only [List.foldl_cons]
    rw [AlertQueue.enqueue_no_overflow q a (by omega)]
    have h2 := ih ⟨q.jobs ++ [a], q.droppedCount⟩ (by simp; omega)
    unfold AlertQueue.enqueueAll at h2
    rw [h2]
    simp

/-! ### Sync-model lemmas: the target-token invariant -/

theorem pairsOk_filter (ps : List (String × PairRuntime))
    (f : String × PairRuntime → Bool) (h : pairsOk ps) : pairsOk (ps.filter f) := by
  intro p hp
  exact h p (List.mem_of_mem_filter hp)

theorem pairsOk_mapGen (ps : List (String × PairRuntime)) (g : Nat)
    (h : pairsOk ps) :
    pairsOk (ps.map (fun p => (p.1, { p.2 with provGen := g }))) := by
  intro p hp
  simp only [List.mem_map] at hp
  obtain ⟨q, hq, rfl⟩ := hp
  exact h q hq

theorem pairsOk_mapSet (ps : List (String × PairRuntime)) (k : String)
    (v : PairRuntime) (h : pairsOk ps)
    (hv : v.targetToken = v.token0 ∨ v.targetToken = v.token1) :
    pairsOk (mapSet ps k v) := by
  intro p hp
  rcases mem_mapSet ps k v p hp with h1 | h1
  · exact h p h1
  · subst h1; exact hv

/-- Every subscription the attach loop adds satisfies the target-token
invariant provided the resolved target always matches one of the tokens
the chain reads back. -/
theorem attachNewPairs_pairsOk (env : SyncEnv) (gs : List (Int × GroupSettings))
    (c : String) (gen : Nat) (ps : List (String × PairRuntime))
    (needed : List String) (hps : pairsOk ps)
    (hmatch : ∀ a tt t0 t1, findTargetToken gs c a = some tt →
      env.tokenRead c a = some (t0, t1) → tt = t0 ∨ tt = t1) :
    pairsOk (attachNewPairs env gs c gen ps needed).1 := by
  induction needed generalizing ps with
  | nil => simpa [attachNewPairs] using hps
  | cons a rest ih =>
    unfold attachNewPairs
    by_cases h1 : mapHas ps a
    · simp only [h1, if_true]
      exact ih ps hps
    · simp only [h1, Bool.false_eq_true, if_false]
      by_cases h2 : env.validAddr a
      · simp only [h2, Bool.not_true, Bool.false_eq_true, if_false]
        cases hft : findTargetToken gs c a with
        | none => exact ih ps hps
        | some tt =>
          by_cases h3 : tt == ""
          · simp only [h3, if_true]
            exact ih ps hps
          · simp only [h3, Bool.false_eq_true, if_false]
            cases htr : env.tokenRead c a with
            | none => exact ih ps hps
            | some t01 =>
              obtain ⟨t0, t1⟩ := t01
              exact ih (mapSet ps a ⟨t0, t1, tt, gen⟩)
                (pairsOk_mapSet ps a ⟨t0, t1, tt, gen⟩ hps
                  (hmatch a tt t0 t1 hft htr))
      · simp only [h2, Bool.not_false, if_true]
        exact ih ps hps

theorem refreshRuntime_pairsOk (env : SyncEnv) (c : String) (rt : ChainRuntime)
    (h : pairsOk rt.pairs) : pairsOk (refreshRuntime env c rt).1.pairs := by
  unfold refreshRuntime
  dsimp only
  split_ifs with h1 h2
  · exact pairsOk_mapGen rt.pairs (rt.provGen + 1) h
  · exact h
  · exact h

theorem syncChain_pairInvariant (env : SyncEnv) (gs : List (Int × GroupSettings))
    (c : String) (needed : List String) (rts : List (String × ChainRuntime))
    (hinv : pairInvariant rts)
    (hmatch : ∀ a tt t0 t1, findTargetToken gs c a = some tt →
      env.tokenRead c a = some (t0, t1) → tt = t0 ∨ tt = t1) :
    pairInvariant (syncChain env gs c needed rts).1 := by
  unfold syncChain
  cases hc : env.chains c with
  | none => exact hinv
  | some cfg =>
    by_cases hurl : cfg.rpcUrl == ""
    · simp only [hurl, if_true]
      exact hinv
    · simp only [hurl, Bool.false_eq_true, if_false]
      cases hlk : mapLookup rts c with
      | none =>
        intro crt hcrt
        simp only [List.mem_append, List.mem_singleton] at hcrt
        rcases hcrt with h1 | h1
        · exact hinv crt h1
        · subst h1
          exact attachNewPairs_pairsOk env gs c _ _ needed
            (pairsOk_filter _ _ (by intro p hp; simp at hp)) hmatch
      | some rt =>
        intro crt hcrt
        rcases mem_mapSet _ _ _ _ hcrt with h1 | h1
        · exact hinv crt h1
        · subst h1
          refine attachNewPairs_pairsOk env gs c _ _ needed ?_ hmatch
          refine pairsOk_filter _ _ ?_
          exact refreshRuntime_pairsOk env c rt
            (hinv (c, rt) (mapLookup_some_mem rts c rt hlk))

theorem syncChains_pairInvariant (env : SyncEnv) (gs : List (Int × GroupSettings))
    (needed : List (String × List String)) (rts : List (String × ChainRuntime))
    (hinv : pairInvariant rts)
    (hmatch : ∀ c a tt t0 t1, findTargetToken gs c a = some tt →
      env.tokenRead c a = some (t0, t1) → tt = t0 ∨ tt = t1) :
    pairInvariant (syncChains env gs needed rts).1 := by
  induction needed generalizing rts with
  | nil => simpa [syncChains] using hinv
  | cons cn rest ih =>
    obtain ⟨c, ns⟩ := cn
    unfold syncChains
    exact ih _ (syncChain_pairInvariant env gs c ns rts hinv (hmatch c))

theorem removeOrphanRuntimes_pairInvariant (env : SyncEnv)
    (rts : List (String × ChainRuntime)) (hinv : pairInvariant rts) :
    pairInvariant (removeOrphanRuntimes env rts).1 := by
  induction rts with
  | nil => simpa [removeOrphanRuntimes] using hinv
  | cons hd tl ih =>
    obtain ⟨c, rt⟩ := hd
    have htl : pairInvariant tl := fun crt h => hinv crt (List.mem_cons_of_mem _ h)
    unfold removeOrphanRuntimes
    by_cases h1 : (env.chains c).isSome
    · simp only [h1, if_true]
      intro crt hcrt
      rcases List.mem_cons.mp hcrt with h2 | h2
      · subst h2; exact hinv (c, rt) (List.mem_cons_self _ _)
      · exact ih htl crt h2
    · simp only [h1, Bool.false_eq_true, if_false]
      exact ih htl

theorem pruneDeadPairs_pairInvariant (active : List String)
    (rts : List (String × ChainRuntime)) (hinv : pairInvariant rts) :
    pairInvariant (pruneDeadPairs active rts).1 := by
  induction rts with
  | nil => simpa [pruneDeadPairs] using hinv
  | cons hd tl ih =>
    obtain ⟨c, rt⟩ := hd
    have htl : pairInvariant tl := fun crt h => hinv crt (List.mem_cons_of_mem _ h)
    unfold pruneDeadPairs
    intro crt hcrt
    rcases List.mem_cons.mp hcrt with h2 | h2
    · subst h2
      exact pairsOk_filter _ _ (hinv (c, rt) (List.mem_cons_self _ _))
    · exact ih htl crt h2

/-! ### Sync-model lemmas: lookups through the per-chain steps -/

theorem mapLookup_mapGen (ps : List (String × PairRuntime)) (g : Nat) (a : String) :
    mapLookup (ps.map (fun p => (p.1, { p.2 with provGen := g }))) a =
      (mapLookup ps a).map (fun v => { v with provGen := g }) := by
  induction ps with
  | nil => simp [mapLookup]
  | cons hd tl ih =>
    obtain ⟨k, v⟩ := hd
    by_cases h : k = a <;> simp [mapLookup, h, ih]

theorem mapLookup_of_mem_nodup {α β : Type} [DecidableEq α]
    (m : List (α × β)) (hnd : (m.map Prod.fst).Nodup)
    (x : α × β) (hx : x ∈ m) : mapLookup m x.1 = some x.2 := by
  induction m with
  | nil => simp at hx
  | cons hd tl ih =>
    simp only [List.map_cons, List.nodup_cons] at hnd
    rcases List.mem_cons.mp hx with h1 | h1
    · subst h1
      simp [mapLookup]
    · have hne : hd.1 ≠ x.1 := by
        intro he
        exact hnd.1 (he ▸ List.mem_map_of_mem Prod.fst h1)
      obtain ⟨k, v⟩ := hd
      simp only [mapLookup, if_neg hne]
      exact ih hnd.2 h1

/-- The attach loop never overwrites an existing subscription. -/
theorem attachNewPairs_lookup_preserved (env : SyncEnv)
    (gs : List (Int × GroupSettings)) (c : String) (gen : Nat)
    (ps : List (String × PairRuntime)) (ns : List String) (a : String)
    (ha : mapHas ps a = true) :
    mapLookup (attachNewPairs env gs c gen ps ns).1 a = mapLookup ps a := by
  induction ns generalizing ps with
  | nil => simp [attachNewPairs]
  | cons b rest ih =>
    unfold attachNewPairs
    by_cases h1 : mapHas ps b
    · simp only [h1, if_true]
      exact ih ps ha
    · simp only [h1, Bool.false_eq_true, if_false]
      by_cases h2 : env.validAddr b
      · simp only [h2, Bool.not_true, Bool.false_eq_true, if_false]
        cases hft : findTargetToken gs c b with
        | none => exact ih ps ha
        | some tt =>
          by_cases h3 : tt == ""
          · simp only [h3, if_true]
            exact ih ps ha
          · simp only [h3, Bool.false_eq_true, if_false]
            cases htr : env.tokenRead c b with
            | none => exact ih ps ha
            | some t01 =>
              obtain ⟨t0, t1⟩ := t01
              have hne : a ≠ b := by
                intro he
                subst he
                rw [ha] at h1
                exact h1 rfl
              have hlk := mapLookup_mapSet_ne ps b a
                (⟨t0, t1, tt, gen⟩ : PairRuntime) hne
              have ha2 : mapHas (mapSet ps b
                  (⟨t0, t1, tt, gen⟩ : PairRuntime)) a = true := by
                unfold mapHas
                rw [hlk]
                exact ha
              dsimp only
              rw [ih (mapSet ps b ⟨t0, t1, tt, gen⟩) ha2, hlk]
      · simp only [h2, Bool.not_false, if_true]
        exact ih ps ha

/-- When every subscribed pair is still needed, the cleanup loop touches
nothing. -/
theorem cleanupUnneeded_of_subset (c : String) (needed : List String)
    (pairs : List (String × PairRuntime))
    (h : ∀ q ∈ pairs, needed.contains q.1 = true) :
    cleanupUnneeded c needed pairs = (pairs, []) := by
  unfold cleanupUnneeded
  have h1 : pairs.filter (fun p => needed.contains p.1) = pairs :=
    List.filter_eq_self.mpr h
  have h2 : pairs.filter (fun p => !(needed.contains p.1)) = [] := by
    rw [List.filter_eq_nil_iff]
    intro a ha
    simp only [Bool.not_eq_true, h a ha, Bool.not_true, Bool.false_eq_true,
      not_false_eq_true]
  rw [h1, h2]
  rfl

/-- A websocket runtime judged dead gets a fresh provider generation with
every pair re-attached, preserving tokens and target. -/
theorem refreshRuntime_stale (env : SyncEnv) (c : String) (rt : ChainRuntime)
    (hws : rt.isWebSocket = true)
    (hdead : (!(env.wsOpen c) || rt.wsDead ||
      decide (env.now - rt.lastWsActivity > 60000)) = true) :
    refreshRuntime env c rt =
      ({ rt with
          pairs := rt.pairs.map (fun p => (p.1, { p.2 with provGen := rt.provGen + 1 })),
          provGen := rt.provGen + 1, wsDead := false, lastWsActivity := env.now },
       SyncEvent.replaceProvider c ::
         rt.pairs.map (fun p => SyncEvent.reattach c p.1)) := by
  unfold refreshRuntime
  simp only [hws, if_true, hdead]

/-! ### Sync-model lemmas: idempotence of the reconciliation pass -/


theorem computeNeededStep_chain (env : SyncEnv) (s : GroupSettings) :
    (computeNeededStep env s).chain = s.chain := by
  unfold computeNeededStep
  dsimp only
  split_ifs <;> rfl

theorem computeNeededStep_token (env : SyncEnv) (s : GroupSettings) :
    (computeNeededStep env s).tokenAddress = s.tokenAddress := by
  unfold computeNeededStep
  dsimp only
  split_ifs <;> rfl

theorem computeNeededStep_idem (env : SyncEnv) (s : GroupSettings) :
    computeNeededStep env (computeNeededStep env s) = computeNeededStep env s := by
  by_cases h1 : chainCfgOk env s.chain
  · by_cases h2 : s.allPairAddresses.isEmpty
    · by_cases h3 : (env.autoFill s.tokenAddress s.chain).isEmpty
      · simp [computeNeededStep, h1, h2, h3]
      · simp [computeNeededStep, h1, h2, h3]
    · simp [computeNeededStep, h1, h2]
  · simp [computeNeededStep, h1]

theorem computeNeededAux_fst (env : SyncEnv) (acc : List (String × List String))
    (gs : List (Int × GroupSettings)) :
    (computeNeededAux env acc gs).1 =
      gs.map (fun g => (g.1, computeNeededStep env g.2)) := by
  induction gs generalizing acc with
  | nil => simp [computeNeededAux]
  | cons hd tl ih =>
    obtain ⟨gid, s⟩ := hd
    unfold computeNeededAux
    simp only [List.map_cons]
    exact congrArg _ (ih _)

theorem computeNeededAux_idem (env : SyncEnv) (acc : List (String × List String))
    (gs : List (Int × GroupSettings)) :
    computeNeededAux env acc ((computeNeededAux env acc gs).1) =
      computeNeededAux env acc gs := by
  induction gs generalizing acc with
  | nil => simp [computeNeededAux]
  | cons hd tl ih =>
    obtain ⟨gid, s⟩ := hd
    show computeNeededAux env acc
        ((gid, computeNeededStep env s) ::
          (computeNeededAux env _ tl).1) = _
    unfold computeNeededAux
    dsimp only
    rw [computeNeededStep_idem, computeNeededStep_chain]
    rw [ih]



theorem mem_insertUniqueAddr (l : List String) (b a : String)
    (h : a ∈ insertUniqueAddr l b) : a ∈ l ∨ a = b := by
  unfold insertUniqueAddr at h
  split_ifs at h with h1
  · exact Or.inl h
  · rcases List.mem_append.mp h with h2 | h2
    · exact Or.inl h2
    · exact Or.inr (List.mem_singleton.mp h2)

theorem mem_foldl_insertUniqueAddr (addrs : List String) (s : List String)
    (a : String) (h : a ∈ addrs.foldl insertUniqueAddr s) : a ∈ s ∨ a ∈ addrs := by
  induction addrs generalizing s with
  | nil => exact Or.inl h
  | cons b rest ih =>
    simp only [List.foldl_cons] at h
    rcases ih (insertUniqueAddr s b) h with h1 | h1
    · rcases mem_insertUniqueAddr s b a h1 with h2 | h2
      · exact Or.inl h2
      · exact Or.inr (h2 ▸ List.mem_cons_self _ _)
    · exact Or.inr (List.mem_cons_of_mem _ h1)

theorem mem_neededInsert_key (m : List (String × List String)) (c : String)
    (addrs : List String) (x : String × List String)
    (hx : x ∈ neededInsert m c addrs) : x.1 = c ∨ x ∈ m := by
  induction m with
  | nil =>
    unfold neededInsert at hx
    rcases List.mem_singleton.mp hx with h
    exact Or.inl (by rw [h])
  | cons hd tl ih =>
    obtain ⟨c0, s0⟩ := hd
    unfold neededInsert at hx
    by_cases h1 : c0 = c
    · simp only [h1, if_true] at hx
      rcases List.mem_cons.mp hx with h2 | h2
      · exact Or.inl (by rw [h2])
      · exact Or.inr (List.mem_cons_of_mem _ h2)
    · simp only [h1, if_false] at hx
      rcases List.mem_cons.mp hx with h2 | h2
      · exact Or.inr (h2 ▸ List.mem_cons_self _ _)
      · rcases ih h2 with h3 | h3
        · exact Or.inl h3
        · exact Or.inr (List.mem_cons_of_mem _ h3)

theorem mem_neededInsert_addr (m : List (String × List String)) (c : String)
    (addrs : List String) (x : String × List String) (a : String)
    (hx : x ∈ neededInsert m c addrs) (ha : a ∈ x.2) :
    (∃ y ∈ m, a ∈ y.2) ∨ a ∈ addrs := by
  induction m with
  | nil =>
    unfold neededInsert at hx
    have h := List.mem_singleton.mp hx
    subst h
    rcases mem_foldl_insertUniqueAddr addrs [] a ha with h1 | h1
    · simp at h1
    · exact Or.inr h1
  | cons hd tl ih =>
    obtain ⟨c0, s0⟩ := hd
    unfold neededInsert at hx
    by_cases h1 : c0 = c
    · simp only [h1, if_true] at hx
      rcases List.mem_cons.mp hx with h2 | h2
      · subst h2
        rcases mem_foldl_insertUniqueAddr addrs s0 a ha with h3 | h3
        · exact Or.inl ⟨(c0, s0), List.mem_cons_self _ _, h3⟩
        · exact Or.inr h3
      · exact Or.inl ⟨x, List.mem_cons_of_mem _ h2, ha⟩
    · simp only [h1, if_false] at hx
      rcases List.mem_cons.mp hx with h2 | h2
      · subst h2
        exact Or.inl ⟨(c0, s0), List.mem_cons_self _ _, ha⟩
      · rcases ih h2 with h3 | h3
        · obtain ⟨y, hy, hay⟩ := h3
          exact Or.inl ⟨y, List.mem_cons_of_mem _ hy, hay⟩
        · exact Or.inr h3

theorem computeNeededAux_entry (env : SyncEnv) (acc : List (String × List String))
    (gs : List (Int × GroupSettings)) (x : String × List String)
    (hx : x ∈ (computeNeededAux env acc gs).2) :
    x ∈ acc ∨ (chainCfgOk env x.1 = true ∧
      ∀ a ∈ x.2, (∃ y ∈ acc, a ∈ y.2) ∨
        ∃ g ∈ gs, a ∈ (computeNeededStep env g.2).allPairAddresses) := by
  induction gs generalizing acc with
  | nil =>
    exact Or.inl hx
  | cons hd tl ih =>
    obtain ⟨gid, s⟩ := hd
    unfold computeNeededAux at hx
    dsimp only at hx
    by_cases hc : chainCfgOk env s.chain && !(computeNeededStep env s).allPairAddresses.isEmpty
    · rw [if_pos hc] at hx
      rcases ih (neededInsert acc (computeNeededStep env s).chain
          (computeNeededStep env s).allPairAddresses) hx with h1 | h1
      · rcases mem_neededInsert_key _ _ _ x h1 with h2 | h2
        · right
          constructor
          · rw [h2, computeNeededStep_chain]
            exact ((Bool.and_eq_true _ _).mp hc).1
          · intro a ha
            rcases mem_neededInsert_addr _ _ _ x a h1 ha with h3 | h3
            · exact Or.inl h3
            · exact Or.inr ⟨(gid, s), List.mem_cons_self _ _, h3⟩
        · exact Or.inl h2
      · right
        refine ⟨h1.1, ?_⟩
        intro a ha
        rcases h1.2 a ha with h3 | h3
        · obtain ⟨y, hy, hay⟩ := h3
          rcases mem_neededInsert_key _ _ _ y hy with h4 | h4
          · -- y is the (possibly merged) entry for s.chain
            rcases mem_neededInsert_addr _ _ _ y a hy hay with h5 | h5
            · exact Or.inl h5
            · exact Or.inr ⟨(gid, s), List.mem_cons_self _ _, h5⟩
          · exact Or.inl ⟨y, h4, hay⟩
        · obtain ⟨g, hg, hag⟩ := h3
          exact Or.inr ⟨g, List.mem_cons_of_mem _ hg, hag⟩
    · rw [if_neg hc] at hx
      rcases ih acc hx with h1 | h1
      · exact Or.inl h1
      · right
        refine ⟨h1.1, ?_⟩
        intro a ha
        rcases h1.2 a ha with h3 | h3
        · exact Or.inl h3
        · obtain ⟨g, hg, hag⟩ := h3
          exact Or.inr ⟨g, List.mem_cons_of_mem _ hg, hag⟩



theorem mem_activeFold (gs : List (Int × GroupSettings)) (init : List String)
    (a : String) :
    a ∈ gs.foldl (fun acc g => acc ++ g.2.allPairAddresses) init ↔
      a ∈ init ∨ ∃ g ∈ gs, a ∈ g.2.allPairAddresses := by
  induction gs generalizing init with
  | nil => simp
  | cons hd tl ih =>
    simp only [List.foldl_cons]
    rw [ih]
    simp only [List.mem_append, List.mem_cons]
    constructor
    · rintro ((h | h) | ⟨g, hg, hag⟩)
      · exact Or.inl h
      · exact Or.inr ⟨hd, Or.inl rfl, h⟩
      · exact Or.inr ⟨g, Or.inr hg, hag⟩
    · rintro (h | ⟨g, (rfl | hg), hag⟩)
      · exact Or.inl (Or.inl h)
      · exact Or.inl (Or.inr hag)
      · exact Or.inr ⟨g, hg, hag⟩

theorem mem_activePairAddrs (gs : List (Int × GroupSettings)) (a : String) :
    a ∈ activePairAddrs gs ↔ ∃ g ∈ gs, a ∈ g.2.allPairAddresses := by
  unfold activePairAddrs
  rw [mem_activeFold]
  simp

theorem computeNeededStep_superset (env : SyncEnv) (s : GroupSettings)
    (a : String) (h : a ∈ s.allPairAddresses) :
    a ∈ (computeNeededStep env s).allPairAddresses := by
  unfold computeNeededStep
  dsimp only
  split_ifs with h1 h2 h3
  · rw [List.isEmpty_iff] at h2
    rw [h2] at h
    simp at h
  · rw [List.isEmpty_iff] at h2
    rw [h2] at h
    simp at h
  · exact h
  · exact h

theorem active_subset_step (env : SyncEnv) (gs : List (Int × GroupSettings))
    (a : String) (h : a ∈ activePairAddrs gs) :
    a ∈ activePairAddrs (computeNeeded env gs).1 := by
  rw [mem_activePairAddrs] at h
  obtain ⟨g, hg, hag⟩ := h
  rw [mem_activePairAddrs]
  refine ⟨(g.1, computeNeededStep env g.2), ?_, ?_⟩
  · unfold computeNeeded
    rw [computeNeededAux_fst]
    exact List.mem_map_of_mem _ hg
  · exact computeNeededStep_superset env g.2 a hag

theorem needed_addr_active (env : SyncEnv) (gs : List (Int × GroupSettings))
    (x : String × List String) (a : String)
    (hx : x ∈ (computeNeeded env gs).2) (ha : a ∈ x.2) :
    a ∈ activePairAddrs (computeNeeded env gs).1 := by
  unfold computeNeeded at hx
  rcases computeNeededAux_entry env [] gs x hx with h1 | h1
  · simp at h1
  · rcases h1.2 a ha with h2 | h2
    · obtain ⟨y, hy, _⟩ := h2
      simp at hy
    · obtain ⟨g, hg, hag⟩ := h2
      rw [mem_activePairAddrs]
      refine ⟨(g.1, computeNeededStep env g.2), ?_, hag⟩
      unfold computeNeeded
      rw [computeNeededAux_fst]
      exact List.mem_map_of_mem _ hg

theorem needed_cfgOk (env : SyncEnv) (gs : List (Int × GroupSettings))
    (x : String × List String) (hx : x ∈ (computeNeeded env gs).2) :
    chainCfgOk env x.1 = true := by
  unfold computeNeeded at hx
  rcases computeNeededAux_entry env [] gs x hx with h1 | h1
  · simp at h1
  · exact h1.1



theorem neededInsert_keys (m : List (String × List String)) (c : String)
    (addrs : List String) :
    (neededInsert m c addrs).map Prod.fst =
      if c ∈ m.map Prod.fst then m.map Prod.fst else m.map Prod.fst ++ [c] := by
  induction m with
  | nil => simp [neededInsert]
  | cons hd tl ih =>
    obtain ⟨c0, s0⟩ := hd
    unfold neededInsert
    by_cases h1 : c0 = c
    · subst h1
      simp
    · simp only [h1, if_false, List.map_cons]
      rw [ih]
      by_cases h2 : c ∈ tl.map Prod.fst
      · simp [h2, Ne.symm h1]
      · simp [h2, Ne.symm h1]

theorem neededInsert_keys_nodup (m : List (String × List String)) (c : String)
    (addrs : List String) (h : (m.map Prod.fst).Nodup) :
    ((neededInsert m c addrs).map Prod.fst).Nodup := by
  rw [neededInsert_keys]
  split_ifs with h1
  · exact h
  · simp [List.nodup_append, h, h1]

theorem computeNeededAux_keys_nodup (env : SyncEnv)
    (acc : List (String × List String)) (gs : List (Int × GroupSettings))
    (h : (acc.map Prod.fst).Nodup) :
    (((computeNeededAux env acc gs).2).map Prod.fst).Nodup := by
  induction gs generalizing acc with
  | nil => exact h
  | cons hd tl ih =>
    obtain ⟨gid, s⟩ := hd
    unfold computeNeededAux
    dsimp only
    by_cases hc : chainCfgOk env s.chain && !(computeNeededStep env s).allPairAddresses.isEmpty
    · rw [if_pos hc]
      exact ih _ (neededInsert_keys_nodup acc _ _ h)
    · rw [if_neg hc]
      exact ih acc h

theorem removeOrphan_of_configured (env : SyncEnv)
    (rts : List (String × ChainRuntime)) (h : chainsConfigured env rts) :
    removeOrphanRuntimes env rts = (rts, []) := by
  induction rts with
  | nil => rfl
  | cons hd tl ih =>
    obtain ⟨c, rt⟩ := hd
    have hc : (env.chains c).isSome := h (c, rt) (List.mem_cons_self _ _)
    have htl : chainsConfigured env tl := fun p hp => h p (List.mem_cons_of_mem _ hp)
    unfold removeOrphanRuntimes
    rw [ih htl]
    simp [hc]

theorem prune_of_active (A : List String) (rts : List (String × ChainRuntime))
    (h : pairsActive A rts) : pruneDeadPairs A rts = (rts, []) := by
  induction rts with
  | nil => rfl
  | cons hd tl ih =>
    obtain ⟨c, rt⟩ := hd
    have hc : ∀ q ∈ rt.pairs, A.contains q.1 = true :=
      h (c, rt) (List.mem_cons_self _ _)
    have htl : pairsActive A tl := fun p hp => h p (List.mem_cons_of_mem _ hp)
    unfold pruneDeadPairs
    rw [ih htl]
    have h1 : rt.pairs.filter (fun p => A.contains p.1) = rt.pairs :=
      List.filter_eq_self.mpr hc
    have h2 : rt.pairs.filter (fun p => !(A.contains p.1)) = [] := by
      rw [List.filter_eq_nil_iff]
      intro a ha
      simp only [Bool.not_eq_true, hc a ha, Bool.not_true, Bool.false_eq_true,
        not_false_eq_true]
    rw [h1, h2]
    rfl

theorem refreshRuntime_healthy (env : SyncEnv) (c : String) (rt : ChainRuntime)
    (h : rt.isWebSocket = true → env.wsOpen c = true ∧ rt.wsDead = false ∧
      env.now - rt.lastWsActivity ≤ 60000) :
    refreshRuntime env c rt = (rt, []) := by
  unfold refreshRuntime
  dsimp only
  by_cases hws : rt.isWebSocket
  · obtain ⟨h1, h2, h3⟩ := h hws
    have h4 : ¬(env.now - rt.lastWsActivity > 60000) := by omega
    simp [hws, h1, h2, h4]
  · simp [hws]

theorem attachNewPairs_of_stable (env : SyncEnv) (gs : List (Int × GroupSettings))
    (c : String) (gen : Nat) (ps : List (String × PairRuntime)) (ns : List String)
    (h : ∀ a ∈ ns, mapHas ps a = true ∨ attachFails env gs c a) :
    attachNewPairs env gs c gen ps ns = (ps, []) := by
  induction ns with
  | nil => rfl
  | cons b rest ih =>
    have hrest : ∀ a ∈ rest, mapHas ps a = true ∨ attachFails env gs c a :=
      fun a ha => h a (List.mem_cons_of_mem _ ha)
    unfold attachNewPairs
    rcases h b (List.mem_cons_self _ _) with hhas | hfail
    · rw [if_pos hhas]
      exact ih hrest
    · by_cases h1 : mapHas ps b
      · rw [if_pos h1]
        exact ih hrest
      · simp only [h1, Bool.false_eq_true, if_false]
        unfold attachFails at hfail
        by_cases h2 : env.validAddr b
        · simp only [h2, Bool.not_true, Bool.false_eq_true, if_false]
          cases hft : findTargetToken gs c b with
          | none => exact ih hrest
          | some tt =>
            by_cases h3 : tt == ""
            · simp only [h3, if_true]
              exact ih hrest
            · simp only [h3, Bool.false_eq_true, if_false]
              cases htr : env.tokenRead c b with
              | none => exact ih hrest
              | some t01 =>
                exfalso
                rcases hfail with h4 | h4 | h4 | h4
                · rw [h2] at h4; exact absurd h4 (by simp)
                · rw [hft] at h4; exact Option.some_ne_none tt h4
                · rw [hft] at h4
                  have := Option.some.inj h4
                  subst this
                  simp at h3
                · rw [htr] at h4; exact Option.some_ne_none t01 h4
        · simp only [h2, Bool.not_false, if_true]
          exact ih hrest



theorem syncChain_identity (env : SyncEnv) (gs : List (Int × GroupSettings))
    (c : String) (ns : List String) (rts : List (String × ChainRuntime))
    (cfg : ChainConfig) (rt : ChainRuntime)
    (hcfg : env.chains c = some cfg) (hurl : (cfg.rpcUrl == "") = false)
    (hlk : mapLookup rts c = some rt)
    (hhealthy : rt.isWebSocket = true → env.wsOpen c = true ∧ rt.wsDead = false ∧
      env.now - rt.lastWsActivity ≤ 60000)
    (hsub : ∀ q ∈ rt.pairs, ns.contains q.1 = true)
    (hstable : ∀ a ∈ ns, mapHas rt.pairs a = true ∨ attachFails env gs c a) :
    syncChain env gs c ns rts = (rts, []) := by
  unfold syncChain
  rw [hcfg]
  simp only [hurl, Bool.false_eq_true, if_false]
  rw [hlk]
  dsimp only
  rw [refreshRuntime_healthy env c rt hhealthy]
  dsimp only
  rw [cleanupUnneeded_of_subset c ns rt.pairs hsub]
  dsimp only
  rw [attachNewPairs_of_stable env gs c rt.provGen rt.pairs ns hstable]
  dsimp only
  have heta : ({ rt with pairs := rt.pairs } : ChainRuntime) = rt := rfl
  rw [heta, mapSet_self rts c rt hlk]
  rfl

theorem syncChains_identity (env : SyncEnv) (gs : List (Int × GroupSettings))
    (needed : List (String × List String)) (rts : List (String × ChainRuntime))
    (h : ∀ cn ∈ needed, ∃ cfg rt, env.chains cn.1 = some cfg ∧
      (cfg.rpcUrl == "") = false ∧ mapLookup rts cn.1 = some rt ∧
      (rt.isWebSocket = true → env.wsOpen cn.1 = true ∧ rt.wsDead = false ∧
        env.now - rt.lastWsActivity ≤ 60000) ∧
      (∀ q ∈ rt.pairs, cn.2.contains q.1 = true) ∧
      (∀ a ∈ cn.2, mapHas rt.pairs a = true ∨ attachFails env gs cn.1 a)) :
    syncChains env gs needed rts = (rts, []) := by
  induction needed with
  | nil => rfl
  | cons cn rest ih =>
    obtain ⟨c, ns⟩ := cn
    obtain ⟨cfg, rt, h1, h2, h3, h4, h5, h6⟩ := h (c, ns) (List.mem_cons_self _ _)
    unfold syncChains
    rw [syncChain_identity env gs c ns rts cfg rt h1 h2 h3 h4 h5 h6]
    dsimp only
    rw [ih (fun cn2 hcn2 => h cn2 (List.mem_cons_of_mem _ hcn2))]
    rfl



theorem chainCfgOk_iff (env : SyncEnv) (c : String) :
    chainCfgOk env c = true ↔
      ∃ cfg, env.chains c = some cfg ∧ (cfg.rpcUrl == "") = false := by
  unfold chainCfgOk
  cases h : env.chains c with
  | none => simp
  | some cfg => simp [h]

theorem mapLookup_append_singleton_ne {α β : Type} [DecidableEq α]
    (m : List (α × β)) (k k' : α) (v : β) (h : k ≠ k') :
    mapLookup (m ++ [(k', v)]) k = mapLookup m k := by
  induction m with
  | nil => simp [mapLookup, Ne.symm h]
  | cons hd tl ih =>
    obtain ⟨k0, v0⟩ := hd
    by_cases h0 : k0 = k <;> simp [mapLookup, h0, ih]

theorem mapLookup_append_none {α β : Type} [DecidableEq α]
    (m1 m2 : List (α × β)) (k : α) (h : mapLookup m1 k = none) :
    mapLookup (m1 ++ m2) k = mapLookup m2 k := by
  induction m1 with
  | nil => simp
  | cons hd tl ih =>
    obtain ⟨k0, v0⟩ := hd
    by_cases h0 : k0 = k
    · simp [mapLookup, h0] at h
    · simp only [mapLookup, if_neg h0] at h
      simp only [List.cons_append, mapLookup, if_neg h0]
      exact ih h

theorem attachNewPairs_has_mono (env : SyncEnv) (gs : List (Int × GroupSettings))
    (c : String) (gen : Nat) (ps : List (String × PairRuntime))
    (ns : List String) (a : String) (ha : mapHas ps a = true) :
    mapHas (attachNewPairs env gs c gen ps ns).1 a = true := by
  unfold mapHas
  rw [attachNewPairs_lookup_preserved env gs c gen ps ns a ha]
  exact ha

theorem attachNewPairs_keys (env : SyncEnv) (gs : List (Int × GroupSettings))
    (c : String) (gen : Nat) (ps : List (String × PairRuntime))
    (ns : List String) (P : String → Prop)
    (hps : ∀ q ∈ ps, P q.1) (hns : ∀ a ∈ ns, P a) :
    ∀ q ∈ (attachNewPairs env gs c gen ps ns).1, P q.1 := by
  induction ns generalizing ps with
  | nil => simpa [attachNewPairs] using hps
  | cons b rest ih =>
    have hrest : ∀ a ∈ rest, P a := fun a h => hns a (List.mem_cons_of_mem _ h)
    unfold attachNewPairs
    by_cases h1 : mapHas ps b
    · simp only [h1, if_true]
      exact ih ps hps hrest
    · simp only [h1, Bool.false_eq_true, if_false]
      by_cases h2 : env.validAddr b
      · simp only [h2, Bool.not_true, Bool.false_eq_true, if_false]
        cases hft : findTargetToken gs c b with
        | none => exact ih ps hps hrest
        | some tt =>
          by_cases h3 : tt == ""
          · simp only [h3, if_true]
            exact ih ps hps hrest
          · simp only [h3, Bool.false_eq_true, if_false]
            cases htr : env.tokenRead c b with
            | none => exact ih ps hps hrest
            | some t01 =>
              obtain ⟨t0, t1⟩ := t01
              dsimp only
              refine ih (mapSet ps b ⟨t0, t1, tt, gen⟩) ?_ hrest
              intro q hq
              rcases mem_mapSet ps b _ q hq with h4 | h4
              · exact hps q h4
              · rw [h4]
                exact hns b (List.mem_cons_self _ _)
      · simp only [h2, Bool.not_false, if_true]
        exact ih ps hps hrest

theorem attachNewPairs_post (env : SyncEnv) (gs : List (Int × GroupSettings))
    (c : String) (gen : Nat) (ps : List (String × PairRuntime))
    (ns : List String) :
    ∀ a ∈ ns, mapHas (attachNewPairs env gs c gen ps ns).1 a = true ∨
      attachFails env gs c a := by
  induction ns generalizing ps with
  | nil => simp
  | cons b rest ih =>
    intro a ha
    unfold attachNewPairs
    by_cases h1 : mapHas ps b
    · simp only [h1, if_true]
      rcases List.mem_cons.mp ha with h0 | h0
      · subst h0
        exact Or.inl (attachNewPairs_has_mono env gs c gen ps rest a h1)
      · exact ih ps a h0
    · simp only [h1, Bool.false_eq_true, if_false]
      by_cases h2 : env.validAddr b
      · simp only [h2, Bool.not_true, Bool.false_eq_true, if_false]
        cases hft : findTargetToken gs c b with
        | none =>
          rcases List.mem_cons.mp ha with h0 | h0
          · subst h0
            exact Or.inr (Or.inr (Or.inl hft))
          · exact ih ps a h0
        | some tt =>
          by_cases h3 : tt == ""
          · simp only [h3, if_true]
            rcases List.mem_cons.mp ha with h0 | h0
            · subst h0
              refine Or.inr (Or.inr (Or.inr (Or.inl ?_)))
              rw [hft]
              congr 1
              exact eq_of_beq h3
            · exact ih ps a h0
          · simp only [h3, Bool.false_eq_true, if_false]
            cases htr : env.tokenRead c b with
            | none =>
              rcases List.mem_cons.mp ha with h0 | h0
              · subst h0
                exact Or.inr (Or.inr (Or.inr (Or.inr htr)))
              · exact ih ps a h0
            | some t01 =>
              obtain ⟨t0, t1⟩ := t01
              dsimp only
              rcases List.mem_cons.mp ha with h0 | h0
              · subst h0
                refine Or.inl (attachNewPairs_has_mono env gs c gen _ rest a ?_)
                unfold mapHas
                rw [mapLookup_mapSet_self]
                rfl
              · exact ih (mapSet ps b ⟨t0, t1, tt, gen⟩) a h0
      · simp only [h2, Bool.not_false, if_true]
        rcases List.mem_cons.mp ha with h0 | h0
        · subst h0
          exact Or.inr (Or.inl (by simpa using h2))
        · exact ih ps a h0



theorem mapLookup_none_iff {α β : Type} [DecidableEq α]
    (m : List (α × β)) (k : α) :
    mapLookup m k = none ↔ k ∉ m.map Prod.fst := by
  induction m with
  | nil => simp [mapLookup]
  | cons hd tl ih =>
    obtain ⟨k0, v0⟩ := hd
    by_cases h0 : k0 = k
    · subst h0
      simp [mapLookup]
    · simp [mapLookup, h0, ih, Ne.symm h0]

theorem mapSet_keys_of_not_has {α β : Type} [DecidableEq α]
    (m : List (α × β)) (k : α) (v : β) (h : mapLookup m k = none) :
    (mapSet m k v).map Prod.fst = m.map Prod.fst ++ [k] := by
  induction m with
  | nil => simp [mapSet]
  | cons hd tl ih =>
    obtain ⟨k0, v0⟩ := hd
    by_cases h0 : k0 = k
    · simp [mapLookup, h0] at h
    · simp only [mapLookup, if_neg h0] at h
      simp [mapSet, h0, ih h]

theorem attachNewPairs_nodup (env : SyncEnv) (gs : List (Int × GroupSettings))
    (c : String) (gen : Nat) (ps : List (String × PairRuntime))
    (ns : List String) (h : (ps.map Prod.fst).Nodup) :
    (((attachNewPairs env gs c gen ps ns).1).map Prod.fst).Nodup := by
  induction ns generalizing ps with
  | nil => simpa [attachNewPairs] using h
  | cons b rest ih =>
    unfold attachNewPairs
    by_cases h1 : mapHas ps b
    · simp only [h1, if_true]
      exact ih ps h
    · simp only [h1, Bool.false_eq_true, if_false]
      by_cases h2 : env.validAddr b
      · simp only [h2, Bool.not_true, Bool.false_eq_true, if_false]
        cases hft : findTargetToken gs c b with
        | none => exact ih ps h
        | some tt =>
          by_cases h3 : tt == ""
          · simp only [h3, if_true]
            exact ih ps h
          · simp only [h3, Bool.false_eq_true, if_false]
            cases htr : env.tokenRead c b with
            | none => exact ih ps h
            | some t01 =>
              obtain ⟨t0, t1⟩ := t01
              dsimp only
              refine ih (mapSet ps b ⟨t0, t1, tt, gen⟩) ?_
              have hnone : mapLookup ps b = none := by
                unfold mapHas at h1
                cases hb : mapLookup ps b with
                | none => rfl
                | some v => rw [hb] at h1; exact absurd rfl h1
              rw [mapSet_keys_of_not_has ps b _ hnone]
              simp [List.nodup_append, h, (mapLookup_none_iff ps b).mp hnone]
      · simp only [h2, Bool.not_false, if_true]
        exact ih ps h

theorem refreshRuntime_keys (env : SyncEnv) (c : String) (rt : ChainRuntime) :
    ((refreshRuntime env c rt).1.pairs).map Prod.fst = rt.pairs.map Prod.fst := by
  unfold refreshRuntime
  dsimp only
  split_ifs with h1 h2
  · simp [List.map_map]
  · rfl
  · rfl

theorem cleanupUnneeded_keys (c : String) (ns : List String)
    (ps : List (String × PairRuntime)) :
    ∀ q ∈ (cleanupUnneeded c ns ps).1, ns.contains q.1 = true := by
  intro q hq
  unfold cleanupUnneeded at hq
  exact (List.mem_filter.mp hq).2

theorem cleanupUnneeded_subset (c : String) (ns : List String)
    (ps : List (String × PairRuntime)) :
    ∀ q ∈ (cleanupUnneeded c ns ps).1, q ∈ ps := by
  intro q hq
  unfold cleanupUnneeded at hq
  exact (List.mem_filter.mp hq).1

theorem cleanupUnneeded_nodup (c : String) (ns : List String)
    (ps : List (String × PairRuntime)) (h : (ps.map Prod.fst).Nodup) :
    (((cleanupUnneeded c ns ps).1).map Prod.fst).Nodup := by
  unfold cleanupUnneeded
  exact h.sublist (List.Sublist.map _ (List.filter_sublist ps))



theorem syncChain_post (env : SyncEnv) (gs : List (Int × GroupSettings))
    (c : String) (ns : List String) (rts : List (String × ChainRuntime))
    (hcfg : chainCfgOk env c = true) :
    ∃ rt2, mapLookup (syncChain env gs c ns rts).1 c = some rt2 ∧
      (∀ q ∈ rt2.pairs, ns.contains q.1 = true) ∧
      (∀ a ∈ ns, mapHas rt2.pairs a = true ∨ attachFails env gs c a) := by
  obtain ⟨cfg, hc, hurl⟩ := (chainCfgOk_iff env c).mp hcfg
  unfold syncChain
  rw [hc]
  simp only [hurl, Bool.false_eq_true, if_false]
  cases hlk : mapLookup rts c with
  | none =>
    dsimp only
    refine ⟨{ pairs := (attachNewPairs env gs c 0 (cleanupUnneeded c ns []).1 ns).1,
              rpcUrl := cfg.rpcUrl, isWebSocket := startsWithWss cfg.rpcUrl,
              provGen := 0, wsDead := false, lastWsActivity := env.now }, ?_, ?_, ?_⟩
    · rw [mapLookup_append_none rts _ c hlk]
      simp [mapLookup]
    · refine attachNewPairs_keys env gs c _ _ ns (fun a => ns.contains a = true)
        ?_ ?_
      · exact cleanupUnneeded_keys c ns _
      · intro a ha
        exact List.elem_iff.mpr ha
    · exact attachNewPairs_post env gs c _ _ ns
  | some rt =>
    dsimp only
    refine ⟨_, mapLookup_mapSet_self rts c _, ?_, ?_⟩
    · refine attachNewPairs_keys env gs c _ _ ns (fun a => ns.contains a = true)
        ?_ ?_
      · exact cleanupUnneeded_keys c ns _
      · intro a ha
        exact List.elem_iff.mpr ha
    · exact attachNewPairs_post env gs c _ _ ns

theorem syncChain_lookup_other (env : SyncEnv) (gs : List (Int × GroupSettings))
    (c' : String) (ns' : List String) (rts : List (String × ChainRuntime))
    (c : String) (hne : c ≠ c') :
    mapLookup (syncChain env gs c' ns' rts).1 c = mapLookup rts c := by
  unfold syncChain
  cases hc : env.chains c' with
  | none => rfl
  | some cfg =>
    by_cases hurl : cfg.rpcUrl == ""
    · simp only [hurl, if_true]
    · simp only [hurl, Bool.false_eq_true, if_false]
      cases hlk : mapLookup rts c' with
      | none =>
        dsimp only
        exact mapLookup_append_singleton_ne rts c c' _ hne
      | some rt =>
        dsimp only
        exact mapLookup_mapSet_ne rts c' c _ hne

theorem syncChains_lookup_not_mem (env : SyncEnv) (gs : List (Int × GroupSettings))
    (needed : List (String × List String)) (rts : List (String × ChainRuntime))
    (c : String) (h : c ∉ needed.map Prod.fst) :
    mapLookup (syncChains env gs needed rts).1 c = mapLookup rts c := by
  induction needed generalizing rts with
  | nil => rfl
  | cons cn rest ih =>
    obtain ⟨c', ns'⟩ := cn
    simp only [List.map_cons, List.mem_cons] at h
    push_neg at h
    unfold syncChains
    dsimp only
    rw [ih _ h.2, syncChain_lookup_other env gs c' ns' rts c h.1]

theorem syncChains_post (env : SyncEnv) (gs : List (Int × GroupSettings))
    (needed : List (String × List String)) (rts : List (String × ChainRuntime))
    (hnd : (needed.map Prod.fst).Nodup)
    (hcfg : ∀ cn ∈ needed, chainCfgOk env cn.1 = true) :
    ∀ cn ∈ needed, ∃ rt2,
      mapLookup (syncChains env gs needed rts).1 cn.1 = some rt2 ∧
      (∀ q ∈ rt2.pairs, cn.2.contains q.1 = true) ∧
      (∀ a ∈ cn.2, mapHas rt2.pairs a = true ∨ attachFails env gs cn.1 a) := by
  induction needed generalizing rts with
  | nil => simp
  | cons hd rest ih =>
    obtain ⟨c, ns⟩ := hd
    simp only [List.map_cons, List.nodup_cons] at hnd
    intro cn hcn
    rcases List.mem_cons.mp hcn with h0 | h0
    · subst h0
      obtain ⟨rt2, hl, hk, hs⟩ :=
        syncChain_post env gs c ns rts (hcfg (c, ns) (List.mem_cons_self _ _))
      refine ⟨rt2, ?_, hk, hs⟩
      unfold syncChains
      dsimp only
      rw [syncChains_lookup_not_mem env gs rest _ c hnd.1]
      exact hl
    · unfold syncChains
      dsimp only
      exact ih _ hnd.2 (fun cn2 h2 => hcfg cn2 (List.mem_cons_of_mem _ h2)) cn h0



theorem removeOrphan_configured (env : SyncEnv)
    (rts : List (String × ChainRuntime)) :
    chainsConfigured env (removeOrphanRuntimes env rts).1 := by
  induction rts with
  | nil => intro p hp; simp [removeOrphanRuntimes] at hp
  | cons hd tl ih =>
    obtain ⟨c, rt⟩ := hd
    unfold removeOrphanRuntimes
    by_cases h1 : (env.chains c).isSome
    · simp only [h1, if_true]
      intro p hp
      rcases List.mem_cons.mp hp with h2 | h2
      · rw [h2]; exact h1
      · exact ih p h2
    · simp only [h1, Bool.false_eq_true, if_false]
      exact ih

theorem removeOrphan_sub (env : SyncEnv) (rts : List (String × ChainRuntime)) :
    ∀ p ∈ (removeOrphanRuntimes env rts).1, p ∈ rts := by
  induction rts with
  | nil => intro p hp; simp [removeOrphanRuntimes] at hp
  | cons hd tl ih =>
    obtain ⟨c, rt⟩ := hd
    unfold removeOrphanRuntimes
    by_cases h1 : (env.chains c).isSome
    · simp only [h1, if_true]
      intro p hp
      rcases List.mem_cons.mp hp with h2 | h2
      · exact h2 ▸ List.mem_cons_self _ _
      · exact List.mem_cons_of_mem _ (ih p h2)
    · simp only [h1, Bool.false_eq_true, if_false]
      intro p hp
      exact List.mem_cons_of_mem _ (ih p hp)

theorem removeOrphan_nodup (env : SyncEnv) (rts : List (String × ChainRuntime))
    (h : pairsNodup rts) : pairsNodup (removeOrphanRuntimes env rts).1 :=
  fun p hp => h p (removeOrphan_sub env rts p hp)

theorem prune_configured (env : SyncEnv) (A : List String)
    (rts : List (String × ChainRuntime)) (h : chainsConfigured env rts) :
    chainsConfigured env (pruneDeadPairs A rts).1 := by
  induction rts with
  | nil => intro p hp; simp [pruneDeadPairs] at hp
  | cons hd tl ih =>
    obtain ⟨c, rt⟩ := hd
    unfold pruneDeadPairs
    intro p hp
    rcases List.mem_cons.mp hp with h2 | h2
    · rw [h2]
      exact h (c, rt) (List.mem_cons_self _ _)
    · exact ih (fun q hq => h q (List.mem_cons_of_mem _ hq)) p h2

theorem prune_active (A : List String) (rts : List (String × ChainRuntime)) :
    pairsActive A (pruneDeadPairs A rts).1 := by
  induction rts with
  | nil => intro p hp; simp [pruneDeadPairs] at hp
  | cons hd tl ih =>
    obtain ⟨c, rt⟩ := hd
    unfold pruneDeadPairs
    intro p hp
    rcases List.mem_cons.mp hp with h2 | h2
    · subst h2
      intro q hq
      exact (List.mem_filter.mp hq).2
    · exact ih p h2

theorem prune_nodup (A : List String) (rts : List (String × ChainRuntime))
    (h : pairsNodup rts) : pairsNodup (pruneDeadPairs A rts).1 := by
  induction rts with
  | nil => intro p hp; simp [pruneDeadPairs] at hp
  | cons hd tl ih =>
    obtain ⟨c, rt⟩ := hd
    unfold pruneDeadPairs
    intro p hp
    rcases List.mem_cons.mp hp with h2 | h2
    · subst h2
      exact (h (c, rt) (List.mem_cons_self _ _)).sublist
        (List.Sublist.map _ (List.filter_sublist rt.pairs))
    · exact ih (fun q hq => h q (List.mem_cons_of_mem _ hq)) p h2

theorem pairsActive_mono (A A2 : List String)
    (hsub : ∀ a, A.contains a = true → A2.contains a = true)
    (rts : List (String × ChainRuntime)) (h : pairsActive A rts) :
    pairsActive A2 rts :=
  fun p hp q hq => hsub q.1 (h p hp q hq)

theorem syncChain_configured (env : SyncEnv) (gs : List (Int × GroupSettings))
    (c : String) (ns : List String) (rts : List (String × ChainRuntime))
    (h : chainsConfigured env rts) :
    chainsConfigured env (syncChain env gs c ns rts).1 := by
  unfold syncChain
  cases hc : env.chains c with
  | none => exact h
  | some cfg =>
    by_cases hurl : cfg.rpcUrl == ""
    · simp only [hurl, if_true]
      exact h
    · simp only [hurl, Bool.false_eq_true, if_false]
      cases hlk : mapLookup rts c with
      | none =>
        dsimp only
        intro p hp
        rcases List.mem_append.mp hp with h2 | h2
        · exact h p h2
        · rw [List.mem_singleton.mp h2]
          simp [hc]
      | some rt =>
        dsimp only
        intro p hp
        rcases mem_mapSet _ _ _ _ hp with h2 | h2
        · exact h p h2
        · rw [h2]
          simp [hc]

theorem syncChain_active (env : SyncEnv) (gs : List (Int × GroupSettings))
    (c : String) (ns : List String) (rts : List (String × ChainRuntime))
    (A : List String) (h : pairsActive A rts)
    (hns : ∀ a ∈ ns, A.contains a = true) :
    pairsActive A (syncChain env gs c ns rts).1 := by
  have hkeys : ∀ ps, ∀ q ∈ (attachNewPairs env gs c
      (0 : Nat) ps ns).1, True := fun _ _ _ => trivial
  unfold syncChain
  cases hc : env.chains c with
  | none => exact h
  | some cfg =>
    by_cases hurl : cfg.rpcUrl == ""
    · simp only [hurl, if_true]
      exact h
    · simp only [hurl, Bool.false_eq_true, if_false]
      cases hlk : mapLookup rts c with
      | none =>
        dsimp only
        intro p hp
        rcases List.mem_append.mp hp with h2 | h2
        · exact h p h2
        · rw [List.mem_singleton.mp h2]
          intro q hq
          refine attachNewPairs_keys env gs c _ _ ns
            (fun a => A.contains a = true) ?_ hns q hq
          intro q2 hq2
          have := cleanupUnneeded_subset c ns _ q2 hq2
          simp at this
      | some rt =>
        dsimp only
        intro p hp
        rcases mem_mapSet _ _ _ _ hp with h2 | h2
        · exact h p h2
        · rw [h2]
          intro q hq
          refine attachNewPairs_keys env gs c _ _ ns
            (fun a => A.contains a = true) ?_ hns q hq
          intro q2 hq2
          have hq3 := cleanupUnneeded_subset c ns _ q2 hq2
          -- q2 is in the refreshed pairs; its key is an original key
          have hrt : (c, rt) ∈ rts := mapLookup_some_mem rts c rt hlk
          have hkey : q2.1 ∈ (refreshRuntime env c rt).1.pairs.map Prod.fst :=
            List.mem_map_of_mem Prod.fst hq3
          rw [refreshRuntime_keys] at hkey
          obtain ⟨q0, hq0, hq0e⟩ := List.mem_map.mp hkey
          rw [← hq0e]
          exact h (c, rt) hrt q0 hq0

theorem syncChain_nodup (env : SyncEnv) (gs : List (Int × GroupSettings))
    (c : String) (ns : List String) (rts : List (String × ChainRuntime))
    (h : pairsNodup rts) :
    pairsNodup (syncChain env gs c ns rts).1 := by
  unfold syncChain
  cases hc : env.chains c with
  | none => exact h
  | some cfg =>
    by_cases hurl : cfg.rpcUrl == ""
    · simp only [hurl, if_true]
      exact h
    · simp only [hurl, Bool.false_eq_true, if_false]
      cases hlk : mapLookup rts c with
      | none =>
        dsimp only
        intro p hp
        rcases List.mem_append.mp hp with h2 | h2
        · exact h p h2
        · rw [List.mem_singleton.mp h2]
          exact attachNewPairs_nodup env gs c _ _ ns
            (cleanupUnneeded_nodup c ns [] (by simp))
      | some rt =>
        dsimp only
        intro p hp
        rcases mem_mapSet _ _ _ _ hp with h2 | h2
        · exact h p h2
        · rw [h2]
          refine attachNewPairs_nodup env gs c _ _ ns ?_
          refine cleanupUnneeded_nodup c ns _ ?_
          have hrt : (c, rt) ∈ rts := mapLookup_some_mem rts c rt hlk
          have := h (c, rt) hrt
          rw [show ((refreshRuntime env c rt).1.pairs.map Prod.fst) =
            rt.pairs.map Prod.fst from refreshRuntime_keys env c rt]
          exact this

theorem syncChains_configured (env : SyncEnv) (gs : List (Int × GroupSettings))
    (needed : List (String × List String)) (rts : List (String × ChainRuntime))
    (h : chainsConfigured env rts) :
    chainsConfigured env (syncChains env gs needed rts).1 := by
  induction needed generalizing rts with
  | nil => exact h
  | cons cn rest ih =>
    obtain ⟨c, ns⟩ := cn
    unfold syncChains
    exact ih _ (syncChain_configured env gs c ns rts h)

theorem syncChains_active (env : SyncEnv) (gs : List (Int × GroupSettings))
    (needed : List (String × List String)) (rts : List (String × ChainRuntime))
    (A : List String) (h : pairsActive A rts)
    (hns : ∀ cn ∈ needed, ∀ a ∈ cn.2, A.contains a = true) :
    pairsActive A (syncChains env gs needed rts).1 := by
  induction needed generalizing rts with
  | nil => exact h
  | cons cn rest ih =>
    obtain ⟨c, ns⟩ := cn
    unfold syncChains
    exact ih _ (syncChain_active env gs c ns rts A h
        (hns (c, ns) (List.mem_cons_self _ _)))
      (fun cn2 h2 => hns cn2 (List.mem_cons_of_mem _ h2))

theorem syncChains_nodup (env : SyncEnv) (gs : List (Int × GroupSettings))
    (needed : List (String × List String)) (rts : List (String × ChainRuntime))
    (h : pairsNodup rts) :
    pairsNodup (syncChains env gs needed rts).1 := by
  induction needed generalizing rts with
  | nil => exact h
  | cons cn rest ih =>
    obtain ⟨c, ns⟩ := cn
    unfold syncChains
    exact ih _ (syncChain_nodup env gs c ns rts h)



theorem syncListeners_fixpoint (env : SyncEnv) (G : List (Int × GroupSettings))
    (N : List (String × List String)) (R : List (String × ChainRuntime))
    (hor : removeOrphanRuntimes env R = (R, []))
    (hpr : pruneDeadPairs (activePairAddrs G) R = (R, []))
    (hcn : computeNeeded env G = (G, N))
    (hsc : syncChains env G N R = (R, [])) :
    syncListeners env G R = ⟨R, G, []⟩ := by
  unfold syncListeners
  rw [hor]
  dsimp only
  rw [hpr]
  dsimp only
  rw [hcn]
  dsimp only
  rw [hsc]
  rfl


/-! ## Claims -/

/-- C1 (counterexample): the claim asserts every signed-delta event that
is classified as a buy has exactly one of `amount0In > 0` / `amount1In > 0`
non-zero. The event with deltas `(-5, 0)` on a pool whose token0 is the
target is classified as a buy with output `(0, 0, 5, 0)`, where *neither*
in-amount is positive — refuting the exactly-one claim. -/
theorem classifySignedDelta_one_sided_cex :
    classifySignedDelta "0xa" "0xa" (-5) 0 = some (0, 0, 5, 0) ∧
    ¬ exactlyOne ((0:Int) > 0) ((0:Int) > 0) := by
  constructor
  · decide
  · unfold exactlyOne; omega

/-- C1 (amended): a signed-delta event is classified as a buy iff the
delta on the target-token slot is negative (any other sign is discarded);
every amount in the classification output is non-negative; and *when the
delta on the other slot is positive* the output is strictly a one-sided
buy (exactly one positive in-amount and exactly one positive out-amount).
Without that extra positivity hypothesis one-sidedness can fail (see the
counterexample), though such events are rejected downstream by
`handleSwap`'s `baseIn ≤ 0` guard. -/
theorem classifySignedDelta_buy_direction (token0 target : String) (a0 a1 : Int) :
    (classifySignedDelta token0 target a0 a1 = none ↔
      0 ≤ (if token0 = target then a0 else a1)) ∧
    (∀ r, classifySignedDelta token0 target a0 a1 = some r →
      0 ≤ r.1 ∧ 0 ≤ r.2.1 ∧ 0 ≤ r.2.2.1 ∧ 0 ≤ r.2.2.2) ∧
    ((if token0 = target then a0 else a1) < 0 →
      0 < (if token0 = target then a1 else a0) →
      ∀ r, classifySignedDelta token0 target a0 a1 = some r →
        exactlyOne (0 < r.1) (0 < r.2.1) ∧ exactlyOne (0 < r.2.2.1) (0 < r.2.2.2)) := by
  refine ⟨classifySignedDelta_none_iff token0 target a0 a1, ?_, ?_⟩
  · intro r hr
    have h := classifySignedDelta_eq_some token0 target a0 a1 r hr
    subst h
    refine ⟨?_, ?_, ?_, ?_⟩ <;> dsimp only <;> split_ifs <;> omega
  · intro hneg hpos r hr
    have h := classifySignedDelta_eq_some token0 target a0 a1 r hr
    subst h
    unfold exactlyOne
    by_cases ht : token0 = target <;> simp only [ht, if_true, if_false] at hneg hpos <;>
      refine ⟨?_, ?_⟩ <;> dsimp only <;> split_ifs <;> omega

/-- C1 (witness): the amended one-sidedness at deltas `(-5, 3)` with the
target on slot 0. -/
theorem classifySignedDelta_buy_direction_witness :
    ((if ("0xa" : String) = "0xa" then (-5 : Int) else 3) < 0 ∧
      (0:Int) < (if ("0xa" : String) = "0xa" then (3 : Int) else -5)) ∧
    (∀ r, classifySignedDelta "0xa" "0xa" (-5) 3 = some r →
      exactlyOne (0 < r.1) (0 < r.2.1) ∧ exactlyOne (0 < r.2.2.1) (0 < r.2.2.2)) :=
  ⟨⟨by decide, by decide⟩,
    (classifySignedDelta_buy_direction "0xa" "0xa" (-5) 3).2.2 (by decide) (by decide)⟩

/-- C2: for a classified buy whose recipient is a contract, a non-Monad
chain skips unconditionally; on Monad the transaction's `from` becomes the
buyer when it is not a contract, and a contract `from`, a missing
transaction/`from`, or a failed `getTransaction` all skip. -/
theorem resolveBuyer_contract_policy (chain recipient : String)
    (isContract : String → Bool) (tx : TxLookup)
    (hc : isContract recipient = true) :
    (chain ≠ "monad" → resolveBuyer chain recipient isContract tx = none) ∧
    (∀ f, tx = .found f → isContract f = false →
      resolveBuyer "monad" recipient isContract tx = some f) ∧
    (∀ f, tx = .found f → isContract f = true →
      resolveBuyer "monad" recipient isContract tx = none) ∧
    resolveBuyer "monad" recipient isContract .missing = none ∧
    resolveBuyer "monad" recipient isContract .failure = none := by
  unfold resolveBuyer
  refine ⟨?_, ?_, ?_, ?_, ?_⟩
  · intro hne
    simp [hc, hne]
  · intro f hf hfc
    subst hf
    simp [hc, hfc]
  · intro f hf hfc
    subst hf
    simp [hc, hfc]
  · simp [hc]
  · simp [hc]

/-- C2 (witness): on Monad a contract recipient with an EOA `tx.from`
resolves to that EOA. -/
theorem resolveBuyer_contract_policy_witness :
    ((fun a => a == "0xrouter") "0xrouter" = true) ∧
    resolveBuyer "monad" "0xrouter" (fun a => a == "0xrouter") (.found "0xeoa") =
      some "0xeoa" :=
  ⟨by decide,
    (resolveBuyer_contract_policy "monad" "0xrouter" (fun a => a == "0xrouter")
        (.found "0xeoa") (by decide)).2.1 "0xeoa" rfl (by decide)⟩

/-- C3 (counterexample): the claim asserts that with prior balance 1000
and a buy of 2 000 000 units the position increase resolves to `null`.
The code resolves it to `200000` (percent), because its guard threshold is
`MAX_PERCENT_TIMES10 = 1_000_000 * 10`, i.e. 1 000 000 %, not 100 000 %. -/
theorem positionIncrease_threshold_cex :
    positionIncreaseCalc 150 (some 1000) 2000000 = some 200000 := by decide

/-- C3 (amended): for USD value ≥ 100 and positive prior balance, the
position increase is numeric iff the truncated ratio `buy*1000/prev`
(percent × 10) is positive and at most 10 000 000 — a 1 000 000 % cap,
not 100 000 % — and the value is `Math.round` of a tenth of it. With
prior balance 1000, a buy of 9 999 999 units (999 999.9 %) yields
1 000 000 while 10 000 001 units exceeds the cap and yields `null`. -/
theorem positionIncrease_guard (usd : ℚ) (prev buy : Nat)
    (husd : 100 ≤ usd) (hprev : 0 < prev) :
    (positionIncreaseCalc usd (some prev) buy ≠ none ↔
      0 < buy * 1000 / prev ∧ buy * 1000 / prev ≤ 10000000) ∧
    (∀ n, positionIncreaseCalc usd (some prev) buy = some n →
      n = (buy * 1000 / prev + 5) / 10) ∧
    positionIncreaseCalc 150 (some 1000) 9999999 = some 1000000 ∧
    positionIncreaseCalc 150 (some 1000) 10000001 = none := by
  have husd2 : usd ≥ MIN_POSITION_USD := husd
  refine ⟨?_, ?_, by decide, by decide⟩
  · unfold positionIncreaseCalc
    rw [if_pos husd2]
    by_cases hle : buy * 1000 / prev ≤ MAX_PERCENT_TIMES10
    · by_cases hpos : buy * 1000 / prev > 0
      · simp [hprev, hle, hpos, MAX_PERCENT_TIMES10]
      · simp [hprev, hle, hpos, MAX_PERCENT_TIMES10]
    · simp [hprev, hle, MAX_PERCENT_TIMES10]
      omega
  · intro n hn
    unfold positionIncreaseCalc at hn
    rw [if_pos husd2] at hn
    simp only [hprev, if_pos] at hn
    by_cases hle : buy * 1000 / prev ≤ MAX_PERCENT_TIMES10
    · by_cases hpos : buy * 1000 / prev > 0
      · simp only [hle, hpos, if_pos, Option.some.injEq] at hn
        omega
      · simp [hle, hpos] at hn
    · simp [hle] at hn

/-- C3 (witness): the acceptance condition instantiated at USD 150, prior
balance 1000, buy 2 000 000. -/
theorem positionIncrease_guard_witness :
    ((100:ℚ) ≤ 150 ∧ 0 < 1000) ∧
    (positionIncreaseCalc 150 (some 1000) 2000000 ≠ none ↔
      0 < 2000000 * 1000 / 1000 ∧ 2000000 * 1000 / 1000 ≤ 10000000) :=
  ⟨⟨by norm_num, by norm_num⟩,
    (positionIncrease_guard 150 1000 2000000 (by norm_num) (by norm_num)).1⟩

/-- C4 (counterexample): the claim asserts that for a buy of USD 80
against a group minimum of 100 *no* `AlertJob` is enqueued. In the code
`handleSwap` enqueues one job per related group unconditionally — the
queue grows from 0 to 1 job — and only the job body
(`sendPremiumBuyAlert`) applies the minimum filter, returning without
delivering. -/
theorem enqueue_before_filters_cex :
    (handleSwapEnqueue ⟨[], 0⟩ [1]).jobs = [⟨1, 0⟩] ∧
    sendPremiumBuyAlert ⟨100, none, none⟩ 1 "0xp" 80 100000 [] = (false, []) := by
  constructor
  · rfl
  · unfold sendPremiumBuyAlert
    dsimp only
    rw [if_pos (by norm_num [round_eq])]

/-- C4 (amended): `handleSwap` enqueues exactly one `AlertJob` per
related group regardless of the group's filters; the min/max and cooldown
checks happen inside the delivered job, whose `sendPremiumBuyAlert` body
returns without delivering whenever the rounded USD value is below the
group minimum (so a USD-80 buy against a minimum of 100 produces an
enqueued job but no delivered alert). -/
theorem handleSwap_enqueues_before_filters (q : AlertQueue) (gids : List Int)
    (s : BuyBotSettings) (g : Int) (pair : String) (usd : ℚ) (now : Nat)
    (m : CooldownMap)
    (hcap : q.jobs.length + gids.length ≤ MAX_QUEUE_SIZE)
    (hmin : ((round usd : ℤ) : ℚ) < s.minBuyUsd) :
    (handleSwapEnqueue q gids).jobs = q.jobs ++ gids.map (fun g2 => ⟨g2, 0⟩) ∧
    sendPremiumBuyAlert s g pair usd now m = (false, m) := by
  constructor
  · have hmap : handleSwapEnqueue q gids =
        q.enqueueAll (gids.map (fun g2 => ⟨g2, 0⟩)) := by
      unfold handleSwapEnqueue AlertQueue.enqueueAll
      rw [List.foldl_map]
    rw [hmap, AlertQueue.enqueueAll_no_overflow _ _ (by simp; omega)]
  · unfold sendPremiumBuyAlert
    dsimp only
    rw [if_pos hmin]

/-- C4 (witness): one group, empty queue, USD 80 against minimum 100. -/
theorem handleSwap_enqueues_before_filters_witness :
    (((⟨[], 0⟩ : AlertQueue).jobs.length + [(1:Int)].length ≤ MAX_QUEUE_SIZE) ∧
      ((round (80:ℚ) : ℤ) : ℚ) < (100:ℚ)) ∧
    ((handleSwapEnqueue ⟨[], 0⟩ [1]).jobs =
        [] ++ [(1:Int)].map (fun g2 => ⟨g2, 0⟩) ∧
      sendPremiumBuyAlert ⟨100, none, none⟩ 1 "0xp" 80 5000 [] = (false, [])) :=
  ⟨⟨by decide, by norm_num [round_eq]⟩,
    handleSwap_enqueues_before_filters ⟨[], 0⟩ [1] ⟨100, none, none⟩ 1 "0xp" 80
      5000 [] (by decide) (by norm_num [round_eq])⟩

/-- C7: two qualifying buys on the same (group, pool) pair within the
cooldown window deliver exactly one alert — the first call is admitted and
stamps the cooldown map at admission time (before any transport call), and
the second call returns without delivering, leaving the map unchanged. -/
theorem cooldown_single_delivery (s : BuyBotSettings) (g : Int) (pair : String)
    (usd1 usd2 : ℚ) (t1 t2 : Nat) (m0 : CooldownMap)
    (hq1 : passesUsdFilters s usd1 = true)
    (hq2 : passesUsdFilters s usd2 = true)
    (hmiss : mapLookup m0 (g, pair) = none)
    (ht1 : (s.cooldownSeconds.getD 3) * 1000 ≤ t1)
    (ht12 : t1 ≤ t2)
    (hcd : t2 - t1 < (s.cooldownSeconds.getD 3) * 1000) :
    sendPremiumBuyAlert s g pair usd1 t1 m0 = (true, mapSet m0 (g, pair) t1) ∧
    mapLookup (mapSet m0 (g, pair) t1) (g, pair) = some t1 ∧
    sendPremiumBuyAlert s g pair usd2 t2 (mapSet m0 (g, pair) t1) =
      (false, mapSet m0 (g, pair) t1) := by
  refine ⟨?_, mapLookup_mapSet_self m0 (g, pair) t1, ?_⟩
  · apply sendPremiumBuyAlert_admitted s g pair usd1 t1 m0 hq1
    rw [hmiss]
    simp only [Option.getD_none, Nat.cast_zero, sub_zero]
    push_cast
    omega
  · apply sendPremiumBuyAlert_cooldown_blocked
    rw [mapLookup_mapSet_self]
    simp only [Option.getD_some]
    push_cast
    omega

/-- C7 (witness): default 3 s cooldown, two USD-150 buys at t = 3000 ms
and t = 4000 ms. -/
theorem cooldown_single_delivery_witness :
    (passesUsdFilters ⟨100, none, none⟩ 150 = true ∧
      mapLookup ([] : CooldownMap) (1, "0xp") = none ∧
      ((⟨100, none, none⟩ : BuyBotSettings).cooldownSeconds.getD 3) * 1000 ≤ 3000 ∧
      3000 ≤ 4000 ∧
      4000 - 3000 < ((⟨100, none, none⟩ : BuyBotSettings).cooldownSeconds.getD 3) * 1000) ∧
    (sendPremiumBuyAlert ⟨100, none, none⟩ 1 "0xp" 150 3000 [] =
        (true, mapSet [] (1, "0xp") 3000) ∧
      mapLookup (mapSet ([] : CooldownMap) (1, "0xp") 3000) (1, "0xp") = some 3000 ∧
      sendPremiumBuyAlert ⟨100, none, none⟩ 1 "0xp" 150 4000
          (mapSet [] (1, "0xp") 3000) = (false, mapSet [] (1, "0xp") 3000)) :=
  ⟨⟨by norm_num [passesUsdFilters, round_eq], rfl, by norm_num, by norm_num,
      by norm_num⟩,
    cooldown_single_delivery ⟨100, none, none⟩ 1 "0xp" 150 150 3000 4000 []
      (by norm_num [passesUsdFilters, round_eq])
      (by norm_num [passesUsdFilters, round_eq]) rfl (by norm_num) (by norm_num)
      (by norm_num)⟩

/-- C8: the dispatch queue never exceeds 5000 jobs, and enqueueing 5001
jobs into an empty queue leaves exactly the most recent 5000 in FIFO
order (job `i+1` at position `i`), the oldest job dropped, and the drop
counter at 1. -/
theorem alertQueue_bounded_fifo :
    (∀ (q : AlertQueue) (j : AlertJob), q.jobs.length ≤ MAX_QUEUE_SIZE →
      (q.enqueue j).jobs.length ≤ MAX_QUEUE_SIZE) ∧
    (AlertQueue.enqueueAll ⟨[], 0⟩ ((List.range 5001).map (fun i => ⟨0, i⟩)) =
      ⟨((List.range 5001).map (fun i => (⟨0, i⟩ : AlertJob))).drop 1, 1⟩) ∧
    ((List.range 5001).map (fun i => (⟨0, i⟩ : AlertJob))).drop 1 =
      (List.range 5000).map (fun i => ⟨0, i + 1⟩) ∧
    (AlertQueue.enqueueAll ⟨[], 0⟩
      ((List.range 5001).map (fun i => ⟨0, i⟩))).jobs.length = 5000 := by
  have hdrop : ((List.range 5001).map (fun i => (⟨0, i⟩ : AlertJob))).drop 1 =
      (List.range 5000).map (fun i => ⟨0, i + 1⟩) := by
    rw [List.range_succ_eq_map]
    simp [List.map_map]
  have hsplit : (List.range 5001).map (fun i => (⟨0, i⟩ : AlertJob)) =
      (List.range 5000).map (fun i => ⟨0, i⟩) ++ [⟨0, 5000⟩] := by
    rw [List.range_succ]
    simp
  have hfull : AlertQueue.enqueueAll ⟨[], 0⟩
      ((List.range 5000).map (fun i => (⟨0, i⟩ : AlertJob))) =
      ⟨(List.range 5000).map (fun i => ⟨0, i⟩), 0⟩ := by
    have := AlertQueue.enqueueAll_no_overflow ⟨[], 0⟩
      ((List.range 5000).map (fun i => (⟨0, i⟩ : AlertJob)))
      (by simp [MAX_QUEUE_SIZE])
    simpa using this
  have hmain : AlertQueue.enqueueAll ⟨[], 0⟩
      ((List.range 5001).map (fun i => (⟨0, i⟩ : AlertJob))) =
      ⟨((List.range 5001).map (fun i => (⟨0, i⟩ : AlertJob))).drop 1, 1⟩ := by
    rw [hsplit]
    unfold AlertQueue.enqueueAll
    rw [List.foldl_append]
    have hf : List.foldl AlertQueue.enqueue ⟨[], 0⟩
        ((List.range 5000).map (fun i => (⟨0, i⟩ : AlertJob))) =
        ⟨(List.range 5000).map (fun i => ⟨0, i⟩), 0⟩ := hfull
    rw [hf]
    simp only [List.foldl_cons, List.foldl_nil]
    unfold AlertQueue.enqueue
    rw [if_pos (by simp [MAX_QUEUE_SIZE])]
    dsimp only
    rw [List.drop_append_of_le_length (by simp)]
    simp [List.drop_one]
  refine ⟨?_, hmain, hdrop, ?_⟩
  · intro q j hlen
    unfold AlertQueue.enqueue
    simp only [MAX_QUEUE_SIZE] at hlen ⊢
    split_ifs with h
    · simp [List.length_tail]
      omega
    · simp
      omega
  · rw [hmain, hdrop]
    simp

/-- C8 (witness): the cap bound applied to the empty queue. -/
theorem alertQueue_bounded_fifo_witness :
    ((⟨[], 0⟩ : AlertQueue).jobs.length ≤ MAX_QUEUE_SIZE) ∧
    ((⟨[], 0⟩ : AlertQueue).enqueue ⟨0, 0⟩).jobs.length ≤ MAX_QUEUE_SIZE :=
  ⟨by decide, alertQueue_bounded_fifo.1 ⟨[], 0⟩ ⟨0, 0⟩ (by decide)⟩

/-- C10: when the cache has no entry and the code probe fails (missing
runtime or a thrown `getCode`), `isContractAddress` answers `false` and
caches `false` under the chain+address key; every later call for that key
answers `false` from the cache regardless of what the chain would now
report, and buyer resolution therefore treats the address as an end-user
wallet (the recipient itself becomes the buyer). -/
theorem isContractAddress_error_cached
    (cache : List ((String × String) × Bool)) (chain addr : String)
    (probe : CodeProbe) (hmiss : mapLookup cache (chain, addr) = none)
    (herr : probe = .noRuntime ∨ probe = .failure) :
    isContractAddress cache chain addr probe =
      (false, mapSet cache (chain, addr) false) ∧
    mapLookup (isContractAddress cache chain addr probe).2 (chain, addr) =
      some false ∧
    (∀ probe2, isContractAddress (isContractAddress cache chain addr probe).2
        chain addr probe2 = (false, (isContractAddress cache chain addr probe).2)) ∧
    (∀ (probes : String → CodeProbe) (tx : TxLookup),
      resolveBuyer chain addr
        (fun a => (isContractAddress (isContractAddress cache chain addr probe).2
          chain a (probes a)).1) tx = some addr) := by
  have hres : isContractAddress cache chain addr probe =
      (false, mapSet cache (chain, addr) false) := by
    rcases herr with h | h <;> subst h <;> simp [isContractAddress, hmiss]
  have hcached : ∀ probe2,
      isContractAddress (mapSet cache (chain, addr) false) chain addr probe2 =
        (false, mapSet cache (chain, addr) false) := by
    intro probe2
    unfold isContractAddress
    rw [mapLookup_mapSet_self]
  refine ⟨hres, ?_, ?_, ?_⟩
  · rw [hres]
    exact mapLookup_mapSet_self cache (chain, addr) false
  · intro probe2
    rw [hres]
    exact hcached probe2
  · intro probes tx
    rw [hres]
    unfold resolveBuyer
    simp [hcached]

/-- C5 (counterexample): the claim asserts every `PairRuntime` reachable
by running the sync against arbitrary group settings has its target token
equal to token0 or token1. Running the sync from scratch with a group
that tracks token `0xt` on a pool whose on-chain tokens are `0xa`/`0xb`
attaches a subscription with targetToken `0xt` matching neither — the
attach loop never validates the invariant. -/
theorem syncListeners_targetToken_cex :
    (syncListeners envTargetMismatch [(1, ⟨"bsc", "0xt", ["0xp"]⟩)] []).runtimes =
      [("bsc", { pairs := [("0xp", ⟨"0xa", "0xb", "0xt", 0⟩)],
                 rpcUrl := "https://node.example", isWebSocket := false,
                 provGen := 0, wsDead := false, lastWsActivity := 0 })] ∧
    ¬((("0xt" : String) = "0xa") ∨ (("0xt" : String) = "0xb")) := by
  constructor
  · decide
  · decide

/-- C5 (amended): the target-token invariant holds for every subscription
produced by the reconciliation loop *provided* the token address resolved
from the first matching group always equals one of the two tokens the
chain reads back for that pool (and the starting state already satisfies
the invariant); the code itself never checks this at attach time, and
`handleSwap` merely drops events for pools where the configured token
matches neither side. -/
theorem syncListeners_targetToken_invariant (env : SyncEnv)
    (gs : List (Int × GroupSettings)) (rts : List (String × ChainRuntime))
    (hinit : pairInvariant rts)
    (hmatch : ∀ c a tt t0 t1,
      findTargetToken (computeNeeded env gs).1 c a = some tt →
      env.tokenRead c a = some (t0, t1) → tt = t0 ∨ tt = t1) :
    pairInvariant (syncListeners env gs rts).runtimes := by
  unfold syncListeners
  dsimp only
  exact syncChains_pairInvariant env _ _ _
    (pruneDeadPairs_pairInvariant _ _ (removeOrphanRuntimes_pairInvariant env rts hinit))
    hmatch

/-- C5 (witness): a from-scratch sync where the tracked token `0xt` is
the pool's token0. -/
theorem syncListeners_targetToken_invariant_witness :
    pairInvariant ((syncListeners envIdem [(1, ⟨"bsc", "0xt", ["0xp"]⟩)] []).runtimes) :=
  syncListeners_targetToken_invariant envIdem [(1, ⟨"bsc", "0xt", ["0xp"]⟩)] []
    (by intro crt h; simp at h)
    (by
      intro c a tt t0 t1 hf htr
      unfold envIdem at htr
      dsimp only at htr
      by_cases hca : c = "bsc" ∧ a = "0xp"
      · rw [if_pos hca] at htr
        obtain ⟨hc, ha⟩ := hca
        subst hc; subst ha
        have h01 : t0 = "0xt" ∧ t1 = "0xb" := by
          have := Option.some.inj htr
          exact ⟨congrArg Prod.fst this.symm, congrArg Prod.snd this.symm⟩
        have htt : tt = "0xt" := by
          rw [show (computeNeeded envIdem
              [(1, (⟨"bsc", "0xt", ["0xp"]⟩ : GroupSettings))]).1 =
              [(1, ⟨"bsc", "0xt", ["0xp"]⟩)] from by decide] at hf
          simp [findTargetToken] at hf
          exact hf.symm
        left
        rw [htt, h01.1]
      · rw [if_neg hca] at htr
        exact absurd htr (by simp))

/-- C6: a streaming runtime with no activity for more than 60 s is
replaced on the next per-chain sync pass: a `replaceProvider` happens, the
replacement keeps the same endpoint URL, every previously subscribed pool
address is re-attached (and present) on the new provider generation, and
each re-attached subscription keeps its token0, token1 and target token. -/
theorem syncChain_stale_ws_replaces (env : SyncEnv)
    (gs : List (Int × GroupSettings)) (c : String) (needed : List String)
    (rts : List (String × ChainRuntime)) (cfg : ChainConfig) (rt : ChainRuntime)
    (hcfg : env.chains c = some cfg) (hurl : (cfg.rpcUrl == "") = false)
    (hlook : mapLookup rts c = some rt)
    (hws : rt.isWebSocket = true)
    (hstale : env.now - rt.lastWsActivity > 60000)
    (hneed : ∀ p ∈ rt.pairs, needed.contains p.1 = true)
    (hnd : (rt.pairs.map Prod.fst).Nodup) :
    SyncEvent.replaceProvider c ∈ (syncChain env gs c needed rts).2 ∧
    (∀ p ∈ rt.pairs, SyncEvent.reattach c p.1 ∈ (syncChain env gs c needed rts).2) ∧
    ∃ rt2, mapLookup (syncChain env gs c needed rts).1 c = some rt2 ∧
      rt2.rpcUrl = rt.rpcUrl ∧ rt2.provGen = rt.provGen + 1 ∧
      ∀ p ∈ rt.pairs, mapLookup rt2.pairs p.1 =
        some { p.2 with provGen := rt.provGen + 1 } := by
  have hdead : (!(env.wsOpen c) || rt.wsDead ||
      decide (env.now - rt.lastWsActivity > 60000)) = true := by
    simp [hstale]
  have hrefresh := refreshRuntime_stale env c rt hws hdead
  have hrp : ∀ q ∈ rt.pairs.map
      (fun p => (p.1, { p.2 with provGen := rt.provGen + 1 })),
      needed.contains q.1 = true := by
    intro q hq
    simp only [List.mem_map] at hq
    obtain ⟨p, hp, rfl⟩ := hq
    exact hneed p hp
  have hclean := cleanupUnneeded_of_subset c needed
    (rt.pairs.map (fun p => (p.1, { p.2 with provGen := rt.provGen + 1 }))) hrp
  unfold syncChain
  rw [hcfg]
  simp only [hurl, Bool.false_eq_true, if_false]
  rw [hlook]
  dsimp only
  rw [hrefresh]
  dsimp only
  rw [hclean]
  dsimp only
  refine ⟨?_, ?_, ?_⟩
  · simp
  · intro p hp
    simp only [List.mem_append, List.mem_cons]
    left; left; right
    exact List.mem_map_of_mem _ hp
  · refine ⟨_, mapLookup_mapSet_self rts c _, rfl, rfl, ?_⟩
    intro p hp
    have hhas : mapHas (rt.pairs.map
        (fun q => (q.1, { q.2 with provGen := rt.provGen + 1 }))) p.1 = true := by
      unfold mapHas
      rw [mapLookup_mapGen, mapLookup_of_mem_nodup rt.pairs hnd p hp]
      rfl
    dsimp only
    rw [attachNewPairs_lookup_preserved env gs c _ _ needed p.1 hhas,
      mapLookup_mapGen, mapLookup_of_mem_nodup rt.pairs hnd p hp]
    rfl

/-- C6 (witness): one websocket chain, one subscription, 61 001 ms of
silence. -/
theorem syncChain_stale_ws_replaces_witness :
    (envStaleWs.chains "bsc" = some ⟨"wss://node.example"⟩ ∧
      (("wss://node.example" == "") = false) ∧
      mapLookup [("bsc", rtStaleWs)] "bsc" = some rtStaleWs ∧
      rtStaleWs.isWebSocket = true ∧
      envStaleWs.now - rtStaleWs.lastWsActivity > 60000 ∧
      (∀ p ∈ rtStaleWs.pairs, (["0xp"] : List String).contains p.1 = true) ∧
      (rtStaleWs.pairs.map Prod.fst).Nodup) ∧
    SyncEvent.replaceProvider "bsc" ∈
      (syncChain envStaleWs [] "bsc" ["0xp"] [("bsc", rtStaleWs)]).2 :=
  ⟨⟨by decide, by decide, by decide, by decide, by decide, by decide, by decide⟩,
    (syncChain_stale_ws_replaces envStaleWs [] "bsc" ["0xp"] [("bsc", rtStaleWs)]
      ⟨"wss://node.example"⟩ rtStaleWs (by decide) (by decide) (by decide)
      (by decide) (by decide) (by decide) (by decide)).1⟩

/-- C10 (witness): an empty cache and a thrown `getCode` on Monad. -/
theorem isContractAddress_error_cached_witness :
    (mapLookup ([] : List ((String × String) × Bool)) ("monad", "0xr") = none ∧
      (CodeProbe.failure = CodeProbe.noRuntime ∨
        CodeProbe.failure = CodeProbe.failure)) ∧
    isContractAddress [] "monad" "0xr" .failure =
      (false, mapSet [] ("monad", "0xr") false) :=
  ⟨⟨rfl, Or.inr rfl⟩,
    (isContractAddress_error_cached [] "monad" "0xr" .failure rfl (Or.inr rfl)).1⟩

/-- C9: with unchanged group settings and chain configuration (the same
environment), a second `syncListeners` run straight after a first one is a
fixpoint: it changes no runtime and no settings and emits no events at all
(in particular no detach, attach or reattach of any subscription), and
every chain runtime's pairs map is free of duplicate keys. The websocket
connections left by the first run must still look healthy at the second
run, matching the scenario's steady state. -/
theorem syncListeners_idempotent (env : SyncEnv) (gs : List (Int × GroupSettings))
    (rts : List (String × ChainRuntime))
    (hnd0 : pairsNodup rts)
    (hh : runtimesHealthy env (syncListeners env gs rts).runtimes) :
    syncListeners env (syncListeners env gs rts).groups
        (syncListeners env gs rts).runtimes =
      ⟨(syncListeners env gs rts).runtimes, (syncListeners env gs rts).groups, []⟩ ∧
    pairsNodup (syncListeners env gs rts).runtimes := by
  have hgs1 : (syncListeners env gs rts).groups = (computeNeeded env gs).1 := rfl
  have hr1 : (syncListeners env gs rts).runtimes =
      (syncChains env (computeNeeded env gs).1 (computeNeeded env gs).2
        (pruneDeadPairs (activePairAddrs gs) (removeOrphanRuntimes env rts).1).1).1 :=
    rfl
  have hconf : chainsConfigured env (syncListeners env gs rts).runtimes := by
    rw [hr1]
    exact syncChains_configured env _ _ _
      (prune_configured env _ _ (removeOrphan_configured env rts))
  have hmono : ∀ a, (activePairAddrs gs).contains a = true →
      (activePairAddrs (computeNeeded env gs).1).contains a = true := by
    intro a ha
    exact List.elem_iff.mpr
      (active_subset_step env gs a (List.elem_iff.mp ha))
  have hactive : pairsActive (activePairAddrs (computeNeeded env gs).1)
      (syncListeners env gs rts).runtimes := by
    rw [hr1]
    refine syncChains_active env _ _ _ _ ?_ ?_
    · exact pairsActive_mono _ _ hmono _ (prune_active (activePairAddrs gs) _)
    · intro cn hcn a ha
      exact List.elem_iff.mpr (needed_addr_active env gs cn a hcn ha)
  have hnodup : pairsNodup (syncListeners env gs rts).runtimes := by
    rw [hr1]
    exact syncChains_nodup env _ _ _
      (prune_nodup _ _ (removeOrphan_nodup env rts hnd0))
  have hkeysnd : (((computeNeeded env gs).2).map Prod.fst).Nodup :=
    computeNeededAux_keys_nodup env [] gs (by simp)
  have hcfgall : ∀ cn ∈ (computeNeeded env gs).2, chainCfgOk env cn.1 = true :=
    fun cn hcn => needed_cfgOk env gs cn hcn
  have hpost := syncChains_post env (computeNeeded env gs).1
    (computeNeeded env gs).2
    (pruneDeadPairs (activePairAddrs gs) (removeOrphanRuntimes env rts).1).1
    hkeysnd hcfgall
  have hidem : computeNeeded env (computeNeeded env gs).1 = computeNeeded env gs :=
    computeNeededAux_idem env [] gs
  have h1 : removeOrphanRuntimes env (syncListeners env gs rts).runtimes =
      ((syncListeners env gs rts).runtimes, []) :=
    removeOrphan_of_configured env _ hconf
  have h2 : pruneDeadPairs (activePairAddrs (computeNeeded env gs).1)
      (syncListeners env gs rts).runtimes =
      ((syncListeners env gs rts).runtimes, []) :=
    prune_of_active _ _ hactive
  have h3 : syncChains env (computeNeeded env gs).1 (computeNeeded env gs).2
      (syncListeners env gs rts).runtimes =
      ((syncListeners env gs rts).runtimes, []) := by
    refine syncChains_identity env _ _ _ ?_
    intro cn hcn
    obtain ⟨cfg, hcfg1, hcfg2⟩ := (chainCfgOk_iff env cn.1).mp (hcfgall cn hcn)
    obtain ⟨rt2, hlk, hkeys, hstable⟩ := hpost cn hcn
    have hlk2 : mapLookup (syncListeners env gs rts).runtimes cn.1 = some rt2 := by
      rw [hr1]
      exact hlk
    refine ⟨cfg, rt2, hcfg1, hcfg2, hlk2, ?_, hkeys, hstable⟩
    intro hws
    exact hh (cn.1, rt2) (mapLookup_some_mem _ _ _ hlk2) hws
  constructor
  · exact syncListeners_fixpoint env (computeNeeded env gs).1 (computeNeeded env gs).2
      (syncListeners env gs rts).runtimes h1 h2 (by rw [hidem]) h3
  · exact hnodup



/-- C9 (witness): one HTTP chain, one group, run from an empty runtime
set. -/
theorem syncListeners_idempotent_witness :
    (pairsNodup ([] : List (String × ChainRuntime)) ∧
      runtimesHealthy envIdem
        (syncListeners envIdem [(1, ⟨"bsc", "0xt", ["0xp"]⟩)] []).runtimes) ∧
    syncListeners envIdem
        (syncListeners envIdem [(1, ⟨"bsc", "0xt", ["0xp"]⟩)] []).groups
        (syncListeners envIdem [(1, ⟨"bsc", "0xt", ["0xp"]⟩)] []).runtimes =
      ⟨(syncListeners envIdem [(1, ⟨"bsc", "0xt", ["0xp"]⟩)] []).runtimes,
        (syncListeners envIdem [(1, ⟨"bsc", "0xt", ["0xp"]⟩)] []).groups, []⟩ :=
  ⟨⟨by intro p hp; simp at hp,
    by
      intro p hp hws
      rw [show (syncListeners envIdem [(1, ⟨"bsc", "0xt", ["0xp"]⟩)] []).runtimes =
        [("bsc", { pairs := [("0xp", ⟨"0xt", "0xb", "0xt", 0⟩)],
                   rpcUrl := "https://node.example", isWebSocket := false,
                   provGen := 0, wsDead := false, lastWsActivity := 0 })]
        from by decide] at hp
      simp only [List.mem_singleton] at hp
      subst hp
      exact absurd hws (by decide)⟩,
    (syncListeners_idempotent envIdem [(1, ⟨"bsc", "0xt", ["0xp"]⟩)] []
      (by intro p hp; simp at hp)
      (by
        intro p hp hws
        rw [show (syncListeners envIdem [(1, ⟨"bsc", "0xt", ["0xp"]⟩)] []).runtimes =
          [("bsc", { pairs := [("0xp", ⟨"0xt", "0xb", "0xt", 0⟩)],
                     rpcUrl := "https://node.example", isWebSocket := false,
                     provGen := 0, wsDead := false, lastWsActivity := 0 })]
          from by decide] at hp
        simp only [List.mem_singleton] at hp
        subst hp
        exact absurd hws (by decide))).1⟩


end MNDBBT
